import Mathlib

/-!
# HTTP-FLV subscriber session (`pkg/httpflv/server_sub_session.go`)

A shallow embedding of `SubSession` and its operations (`ReadRequest`, the
write operations, `Dispose`, `GetStat`, `UpdateStat`, `IsAlive`) and of the
library functions that `ReadRequest` calls (`strings.HasSuffix`,
`strings.Split`, `url.Parse`, `nazahttp.ParseHTTPRequestLine`), followed by
theorems about the identity that a request line resolves to, about disposal
and writing, and about the statistics and the liveness of a session.

A Go `string` is a sequence of bytes.  It is embedded as a `List Char` in which
every character stands for the byte with the same code, so that `'/'`, `'.'`,
`'%'` are the bytes 0x2f, 0x2e, 0x25.
-/

namespace Httpflv

/-- Go `string`: a sequence of bytes, one `Char` per byte. -/
abbrev GoString := List Char

/-! ## Package `strings` -/

namespace strings

/-- Go `strings.HasPrefix(s, prefix)`. -/
def HasPrefix (s pre : GoString) : Bool := pre.isPrefixOf s

/-- Go `strings.HasSuffix(s, suffix)`. -/
def HasSuffix (s suf : GoString) : Bool := suf.isSuffixOf s

/-- Go `strings.Split(s, sep)` for a one-byte separator `sep`: the substrings
between the occurrences of `sep`; a string without `sep` (the empty string
included) gives the one-element slice `[s]`. -/
def Split : GoString → Char → List GoString
  | [], _ => [[]]
  | c :: cs, sep =>
    if c = sep then [] :: Split cs sep
    else
      match Split cs sep with
      | [] => [[c]]
      | h :: t => (c :: h) :: t

/-- Go `strings.Count(s, sep)` for a one-byte separator. -/
def Count (s : GoString) (sep : Char) : Nat := s.count sep

/-- Go `strings.Contains(s, sep)` for a one-byte `sep`. -/
def Contains (s : GoString) (sep : Char) : Bool := s.contains sep

/-- The part of `s` before the first `sep` (all of `s` when there is none). -/
def before (s : GoString) (sep : Char) : GoString := s.takeWhile (fun c => c != sep)

/-- The part of `s` after the first `sep` (empty when there is none). -/
def after (s : GoString) (sep : Char) : GoString := (s.dropWhile (fun c => c != sep)).drop 1

/-- The part of `s` before the last `sep`; `none` when `sep` does not occur
(`strings.LastIndex` returning `-1`). -/
def beforeLast (s : GoString) (sep : Char) : Option GoString :=
  if s.contains sep then some (after s.reverse sep).reverse else none

/-- The part of `s` after the last `sep` (the whole of `s` when there is none). -/
def afterLast (s : GoString) (sep : Char) : GoString := (before s.reverse sep).reverse

end strings

/-! ## Errors -/

/-- The causes that `url.Parse` wraps in a `*url.Error`. -/
inductive UrlCause where
  /-- Go: `net/url: invalid control character in URL`. -/
  | invalidControlCharacter
  /-- Go: `missing protocol scheme`. -/
  | missingProtocolScheme
  /-- Go: `first path segment in URL cannot contain colon`. -/
  | colonInFirstPathSegment
  /-- Go: `EscapeError(s)`, an invalid percent escape. -/
  | escapeError (s : GoString)
  /-- Go: `InvalidHostError(s)`, a byte that a host may not hold. -/
  | invalidHostError (s : GoString)
  /-- Go: `missing ']' in host`. -/
  | missingBracket
  /-- Go: `invalid port ... after host`. -/
  | invalidPort (s : GoString)
  /-- Go: `net/url: invalid userinfo`. -/
  | invalidUserinfo
  /-- Go: `empty url` (only when parsing on behalf of a request). -/
  | emptyURL
  /-- Go: `invalid URI for request` (only when parsing on behalf of a request). -/
  | invalidURIForRequest
  deriving DecidableEq, Repr

/-- The `error` values that `ReadRequest` can return. -/
inductive GoError where
  /-- The package's own `ErrHTTPFLV`, a variable declared in another file of
  package `httpflv`. -/
  | ErrHTTPFLV
  /-- The tokenizer's `nazahttp.ErrHTTPHeader`. -/
  | ErrHTTPHeader
  /-- A `*url.Error` returned by `url.Parse`, with the text it was parsing. -/
  | urlError (text : GoString) (cause : UrlCause)
  /-- An error of the transport, reported while the header block was read. -/
  | transport (code : Nat)
  deriving DecidableEq, Repr

deriving instance DecidableEq for Except

/-! ## Package `net/url`

`url.Parse` and what it calls, transcribed from the Go standard library. -/

namespace url

/-- The `encoding` modes of `net/url`. -/
inductive encoding where
  | encodePath
  | encodePathSegment
  | encodeHost
  | encodeZone
  | encodeUserPassword
  | encodeQueryComponent
  | encodeFragment
  deriving DecidableEq, Repr

open encoding

/-- An ASCII lower-case letter. -/
def isLower (c : Char) : Bool := decide ('a'.toNat ≤ c.toNat) && decide (c.toNat ≤ 'z'.toNat)

/-- An ASCII upper-case letter. -/
def isUpper (c : Char) : Bool := decide ('A'.toNat ≤ c.toNat) && decide (c.toNat ≤ 'Z'.toNat)

/-- An ASCII digit. -/
def isDigit (c : Char) : Bool := decide ('0'.toNat ≤ c.toNat) && decide (c.toNat ≤ '9'.toNat)

/-- Go `ishex`. -/
def ishex (c : Char) : Bool :=
  isDigit c
    || (decide ('a'.toNat ≤ c.toNat) && decide (c.toNat ≤ 'f'.toNat))
    || (decide ('A'.toNat ≤ c.toNat) && decide (c.toNat ≤ 'F'.toNat))

/-- Go `unhex`. -/
def unhex (c : Char) : Nat :=
  if isDigit c then c.toNat - '0'.toNat
  else if decide ('a'.toNat ≤ c.toNat) && decide (c.toNat ≤ 'f'.toNat) then c.toNat - 'a'.toNat + 10
  else if decide ('A'.toNat ≤ c.toNat) && decide (c.toNat ≤ 'F'.toNat) then c.toNat - 'A'.toNat + 10
  else 0

/-- Go `stringContainsCTLByte`: a byte below 0x20, or 0x7f. -/
def stringContainsCTLByte (s : GoString) : Bool :=
  s.any (fun c => decide (c.toNat < 32) || decide (c.toNat = 127))

/-- Go `shouldEscape(c, encodeHost)`: whether a host may not hold the byte `c`
unescaped. -/
def shouldEscapeHost (c : Char) : Bool :=
  if isLower c || isUpper c || isDigit c then false
  else if [33, 36, 38, 39, 40, 41, 42, 43, 44, 59, 61, 58, 91, 93, 60, 62, 34].contains c.toNat then false
  else if c = '-' || c = '_' || c = '.' || c = '~' then false
  else true

/-- The first loop of Go `unescape`: every `%` is followed by two hex digits
(and, in a host or a zone, escapes only what it may). -/
def unescapeScan (mode : encoding) : GoString → Except UrlCause Unit
  | [] => .ok ()
  | c :: rest =>
    if c = '%' then
      match rest with
      | h1 :: h2 :: rest2 =>
        if !(ishex h1 && ishex h2) then .error (.escapeError ((c :: rest).take 3))
        else if mode = encodeHost && decide (unhex h1 < 8) && [c, h1, h2] != ['%', '2', '5'] then
          .error (.escapeError [c, h1, h2])
        else if mode = encodeZone && [c, h1, h2] != ['%', '2', '5']
            && unhex h1 * 16 + unhex h2 != 32
            && shouldEscapeHost (Char.ofNat (unhex h1 * 16 + unhex h2)) then
          .error (.escapeError [c, h1, h2])
        else unescapeScan mode rest2
      | _ => .error (.escapeError ((c :: rest).take 3))
    else if (mode = encodeHost || mode = encodeZone) && decide (c.toNat < 128)
        && shouldEscapeHost c then
      .error (.invalidHostError [c])
    else unescapeScan mode rest

/-- The second loop of Go `unescape`: `%XY` becomes the byte 0xXY, and `+`
becomes a blank in a query component. -/
def unescapeDecode (mode : encoding) : GoString → GoString
  | [] => []
  | c :: rest =>
    if c = '%' then
      match rest with
      | h1 :: h2 :: rest2 => Char.ofNat (unhex h1 * 16 + unhex h2) :: unescapeDecode mode rest2
      | _ => [c]
    else if c = '+' then
      (if mode = encodeQueryComponent then ' ' else '+') :: unescapeDecode mode rest
    else c :: unescapeDecode mode rest

/-- Go `unescape(s, mode)`. -/
def unescape (s : GoString) (mode : encoding) : Except UrlCause GoString :=
  match unescapeScan mode s with
  | .error e => .error e
  | .ok () =>
    if !s.contains '%' && !(mode = encodeQueryComponent && s.contains '+') then .ok s
    else .ok (unescapeDecode mode s)

/-- Go `url.URL`, with the fields that `Parse` fills in (`RawPath` is a hint of
the encoding of `Path`, is computed after every check, and is left out). -/
structure URL where
  Scheme : GoString := []
  Opaque : GoString := []
  User : Option (GoString × Option GoString) := none
  Host : GoString := []
  Path : GoString := []
  ForceQuery : Bool := false
  RawQuery : GoString := []
  Fragment : GoString := []
  deriving DecidableEq, Repr

/-- The loop of Go `getScheme`: `i` is the index of the byte at the head of the
remaining input. -/
def getSchemeLoop (rawURL : GoString) : Nat → GoString → Except UrlCause (GoString × GoString)
  | _, [] => .ok ([], rawURL)
  | i, c :: rest =>
    if isLower c || isUpper c then getSchemeLoop rawURL (i + 1) rest
    else if isDigit c || c = '+' || c = '-' || c = '.' then
      if i = 0 then .ok ([], rawURL) else getSchemeLoop rawURL (i + 1) rest
    else if c = ':' then
      if i = 0 then .error .missingProtocolScheme else .ok (rawURL.take i, rest)
    else .ok ([], rawURL)

/-- Go `getScheme(rawURL)`: the scheme and what follows its colon, or no scheme
and the whole input. -/
def getScheme (rawURL : GoString) : Except UrlCause (GoString × GoString) :=
  getSchemeLoop rawURL 0 rawURL

/-- Go `strings.ToLower` on ASCII letters. -/
def ToLower (s : GoString) : GoString :=
  s.map (fun c => if isUpper c then Char.ofNat (c.toNat + 32) else c)

/-- Go `validOptionalPort`: empty, or a colon followed by digits only. -/
def validOptionalPort : GoString → Bool
  | [] => true
  | c :: ds => c = ':' && ds.all isDigit

/-- Go `validUserinfo`. -/
def validUserinfo (s : GoString) : Bool :=
  s.all (fun c => isUpper c || isLower c || isDigit c
    || [45, 46, 95, 58, 126, 33, 36, 38, 39, 40, 41, 42, 43, 44, 59, 61, 37, 64].contains c.toNat)

/-- The split of `s` at the first occurrence of the substring `sub`
(`strings.Index`): what stands before it, and the rest from `sub` on. -/
def splitAtSub (sub : GoString) : GoString → Option (GoString × GoString)
  | [] => if sub = [] then some ([], []) else none
  | c :: cs =>
    if sub.isPrefixOf (c :: cs) then some ([], c :: cs)
    else
      match splitAtSub sub cs with
      | some (b, a) => some (c :: b, a)
      | none => none

/-- Go `parseHost`. -/
def parseHost (host : GoString) : Except UrlCause GoString :=
  if strings.HasPrefix host ['['] then
    match strings.beforeLast host ']' with
    | none => .error .missingBracket
    | some inner =>
      let colonPort := strings.afterLast host ']'
      if !validOptionalPort colonPort then .error (.invalidPort colonPort)
      else
        match splitAtSub ['%', '2', '5'] inner with
        | some (h1, z) =>
          match unescape h1 encodeHost with
          | .error e => .error e
          | .ok host1 =>
            match unescape z encodeZone with
            | .error e => .error e
            | .ok host2 =>
              match unescape (']' :: colonPort) encodeHost with
              | .error e => .error e
              | .ok host3 => .ok (host1 ++ host2 ++ host3)
        | none => unescape host encodeHost
  else
    if strings.Contains host ':'
        && !validOptionalPort (':' :: strings.afterLast host ':') then
      .error (.invalidPort (':' :: strings.afterLast host ':'))
    else unescape host encodeHost

/-- Go `parseAuthority`: the user information before the last `@` and the host
after it. -/
def parseAuthority (authority : GoString) :
    Except UrlCause (Option (GoString × Option GoString) × GoString) :=
  match strings.beforeLast authority '@' with
  | none =>
    match parseHost authority with
    | .error e => .error e
    | .ok host => .ok (none, host)
  | some userinfo =>
    match parseHost (strings.afterLast authority '@') with
    | .error e => .error e
    | .ok host =>
      if !validUserinfo userinfo then .error .invalidUserinfo
      else if !strings.Contains userinfo ':' then
        match unescape userinfo encodeUserPassword with
        | .error e => .error e
        | .ok u => .ok (some (u, none), host)
      else
        match unescape (strings.before userinfo ':') encodeUserPassword with
        | .error e => .error e
        | .ok u =>
          match unescape (strings.after userinfo ':') encodeUserPassword with
          | .error e => .error e
          | .ok p => .ok (some (u, some p), host)

/-- Go `(*URL).setPath`: the path is stored unescaped. -/
def setPath (u : URL) (p : GoString) : Except UrlCause URL :=
  match unescape p encodePath with
  | .error e => .error e
  | .ok path => .ok { u with Path := path }

/-- The part of Go `parse` after the query has been split off: opaque and
relative forms, the authority, and the path. -/
def parseRest (u : URL) (rest : GoString) (viaRequest : Bool) : Except UrlCause URL :=
  if !strings.HasPrefix rest ['/'] && u.Scheme != [] then .ok { u with Opaque := rest }
  else if !strings.HasPrefix rest ['/'] && viaRequest then .error .invalidURIForRequest
  else if !strings.HasPrefix rest ['/'] && strings.Contains (strings.before rest '/') ':' then
    .error .colonInFirstPathSegment
  else if (u.Scheme != [] || (!viaRequest && !strings.HasPrefix rest ['/', '/', '/']))
      && strings.HasPrefix rest ['/', '/'] then
    let authority := strings.before (rest.drop 2) '/'
    let rest2 := (rest.drop 2).dropWhile (fun c => c != '/')
    match parseAuthority authority with
    | .error e => .error e
    | .ok (user, host) => setPath { u with User := user, Host := host } rest2
  else setPath u rest

/-- Go `parse(rawURL, viaRequest)`. -/
def parse (rawURL : GoString) (viaRequest : Bool) : Except UrlCause URL :=
  if stringContainsCTLByte rawURL then .error .invalidControlCharacter
  else if rawURL = [] && viaRequest then .error .emptyURL
  else if rawURL = ['*'] then .ok { Path := ['*'] }
  else
    match getScheme rawURL with
    | .error e => .error e
    | .ok (scheme, rest) =>
      if strings.HasSuffix rest ['?'] && strings.Count rest '?' == 1 then
        parseRest { Scheme := ToLower scheme, ForceQuery := true } rest.dropLast viaRequest
      else
        parseRest { Scheme := ToLower scheme, RawQuery := strings.after rest '?' }
          (strings.before rest '?') viaRequest

/-- Go `url.Parse(rawurl)`: the fragment is cut off first, the rest is parsed,
and the fragment is unescaped last. -/
def Parse (rawurl : GoString) : Except GoError URL :=
  match parse (strings.before rawurl '#') false with
  | .error e => .error (.urlError (strings.before rawurl '#') e)
  | .ok u =>
    if strings.after rawurl '#' = [] then .ok u
    else
      match unescape (strings.after rawurl '#') encodeFragment with
      | .error e => .error (.urlError rawurl e)
      | .ok frag => .ok { u with Fragment := frag }

end url

/-! ## Collaborators of the session -/

/-- Go `connection.Stat`: the cumulative byte counters of a transport
(`uint64` values). -/
structure Stat where
  ReadBytesSum : Nat := 0
  WroteBytesSum : Nat := 0
  deriving DecidableEq, Repr

/-- Modelled from the spec: the transport collaborator `connection.Connection`
(package naza, outside this repository) as the session sees it: the counters
that `GetStat` reports, whether `Close` has been called, how often the socket
underneath was closed, and the payloads handed to `Write` (oldest first). -/
structure Connection where
  stat : Stat := {}
  closed : Bool := false
  sockCloses : Nat := 0
  wrote : List GoString := []
  remoteAddr : GoString := []
  deriving DecidableEq, Repr

/-- Modelled from the spec: `Connection.Close` of the transport collaborator,
which closes the socket underneath on the first call only. -/
def Connection.Close (c : Connection) : Connection :=
  if c.closed then c else { c with closed := true, sockCloses := c.sockCloses + 1 }

/-- Modelled from the spec: `base.StatSub` (an embedded `base.StatSession`),
declared in `pkg/base`: the externally visible
statistics record, with the cumulative bytes read and written, the bitrate
estimate, and the identification that `NewSubSession` fills in. -/
structure StatSub where
  Protocol : GoString := []
  SessionID : GoString := []
  StartTime : GoString := []
  RemoteAddr : GoString := []
  ReadBytesSum : Nat := 0
  WroteBytesSum : Nat := 0
  Bitrate : Int := 0
  deriving DecidableEq, Repr

/-- What `nazahttp.ReadHTTPHeader(session.conn)` returns: the first line of the
header block, the header fields, and the error of the line reader.  The line
reader is a collaborator outside this repository, so its outcome is an input
of `ReadRequest`. -/
structure HeaderRead where
  firstLine : GoString := []
  headers : List (GoString × GoString) := []
  err : Option GoError := none
  deriving DecidableEq, Repr

/-- What `nazahttp.ParseHTTPRequestLine` returns. -/
structure RequestLine where
  method : GoString := []
  uri : GoString := []
  version : GoString := []
  err : Option GoError := none
  deriving DecidableEq, Repr

/-- Modelled from the spec: `nazahttp.ParseHTTPRequestLine(line)` of the
line-reader collaborator (package naza, outside this repository) parses a
request line into method, target and version: the line is split on blanks and
must give exactly three items, and any other line gives `ErrHTTPHeader` with
empty results. -/
def ParseHTTPRequestLine (line : GoString) : RequestLine :=
  match strings.Split line ' ' with
  | [m, u, v] => { method := m, uri := u, version := v }
  | _ => { err := some .ErrHTTPHeader }

/-! ## The session -/

/-- Go `SubSession`. -/
structure SubSession where
  UniqueKey : GoString := []
  StartTick : Int := 0
  AppName : GoString := []
  StreamName : GoString := []
  RawQuery : GoString := []
  StreamNameWithRawQuery : GoString := []
  Headers : List (GoString × GoString) := []
  IsFresh : Bool := false
  conn : Connection := {}
  prevConnStat : Stat := {}
  staleStat : Option Stat := none
  stat : StatSub := {}
  deriving DecidableEq, Repr

/-- Go `NewSubSession(conn)`: `protocol` is the constant
`base.ProtocolHTTPFLV`, `uk` the key that `base.GenUniqueKey` hands out,
`startTime` the formatted clock, `conn` the transport wrapped around the
accepted socket.  Every other field has the zero value of its type. -/
def NewSubSession (protocol uk startTime : GoString) (conn : Connection) : SubSession :=
  { UniqueKey := uk
    IsFresh := true
    conn := conn
    stat :=
      { Protocol := protocol
        SessionID := uk
        StartTime := startTime
        RemoteAddr := conn.remoteAddr } }

/-- Go `SubSession.Dispose`. -/
def SubSession.Dispose (session : SubSession) : SubSession :=
  { session with conn := session.conn.Close }

/-- The body of Go `SubSession.ReadRequest` between the assignment of
`StartTick` and the deferred disposal: the returned error (`none` is Go's
`nil`) and the session as the assignments leave it. -/
def SubSession.readRequestBody (session : SubSession) (rd : HeaderRead) :
    Option GoError × SubSession :=
  let session := { session with Headers := rd.headers }
  match rd.err with
  | some e => (some e, session)
  | none =>
    let line := ParseHTTPRequestLine rd.firstLine
    let session := { session with StreamNameWithRawQuery := line.uri }
    match line.err with
    | some e => (some e, session)
    | none =>
      if line.method != ['G', 'E', 'T'] then (some .ErrHTTPFLV, session)
      else
        match url.Parse session.StreamNameWithRawQuery with
        | .error e => (some e, session)
        | .ok urlObj =>
          if !strings.HasSuffix urlObj.Path ['.', 'f', 'l', 'v'] then (some .ErrHTTPFLV, session)
          else
            let items := strings.Split urlObj.Path '/'
            if items.length != 3 then (some .ErrHTTPFLV, session)
            else
              let session := { session with AppName := items.getD 1 [] }
              let items := strings.Split (items.getD 2 []) '.'
              if items.length < 2 then (some .ErrHTTPFLV, session)
              else
                (none, { session with
                  StreamName := items.getD 0 []
                  RawQuery := urlObj.RawQuery })

/-- Go `SubSession.ReadRequest`: `now` is `time.Now().Unix()` and `rd` is what
the line reader delivers from the transport.  The deferred function disposes
the session when the returned error is not `nil`. -/
def SubSession.ReadRequest (session : SubSession) (now : Int) (rd : HeaderRead) :
    Option GoError × SubSession :=
  match SubSession.readRequestBody { session with StartTick := now } rd with
  | (some e, session) => (some e, session.Dispose)
  | (none, session) => (none, session)

/-- The `return` statements of Go `SubSession.ReadRequest`, named after the
test that leads to each. -/
inductive ReturnPoint where
  /-- Line 84: `nazahttp.ReadHTTPHeader` gave an error. -/
  | headerRead
  /-- Line 87: `nazahttp.ParseHTTPRequestLine` gave an error. -/
  | requestLine
  /-- Line 91: the method is not `GET`. -/
  | method
  /-- Line 96: `url.Parse` gave an error. -/
  | urlParse
  /-- Line 100: the path does not end in `.flv`. -/
  | extension
  /-- Line 106: the path has not three segments. -/
  | segmentCount
  /-- Line 112: the stream segment has fewer than two dot-separated parts. -/
  | dotParts
  /-- Line 117: `return nil`. -/
  | accepted
  deriving DecidableEq, Repr

/-- The body of Go `SubSession.ReadRequest` statement by statement, as
`SubSession.readRequestBody`, together with the `return` statement at which it
ends: the tests are made in the order of the source, and each one that fails
returns at once, without the later tests being made. -/
def SubSession.readRequestSteps (session : SubSession) (rd : HeaderRead) :
    ReturnPoint × Option GoError × SubSession :=
  let session := { session with Headers := rd.headers }
  match rd.err with
  | some e => (.headerRead, some e, session)
  | none =>
    let line := ParseHTTPRequestLine rd.firstLine
    let session := { session with StreamNameWithRawQuery := line.uri }
    match line.err with
    | some e => (.requestLine, some e, session)
    | none =>
      if line.method != ['G', 'E', 'T'] then (.method, some .ErrHTTPFLV, session)
      else
        match url.Parse session.StreamNameWithRawQuery with
        | .error e => (.urlParse, some e, session)
        | .ok urlObj =>
          if !strings.HasSuffix urlObj.Path ['.', 'f', 'l', 'v'] then
            (.extension, some .ErrHTTPFLV, session)
          else
            let items := strings.Split urlObj.Path '/'
            if items.length != 3 then (.segmentCount, some .ErrHTTPFLV, session)
            else
              let session := { session with AppName := items.getD 1 [] }
              let items := strings.Split (items.getD 2 []) '.'
              if items.length < 2 then (.dotParts, some .ErrHTTPFLV, session)
              else
                (.accepted, none, { session with
                  StreamName := items.getD 0 []
                  RawQuery := urlObj.RawQuery })

/-- The `return` statement at which Go `SubSession.ReadRequest` ends. -/
def SubSession.ReadRequestReturn (session : SubSession) (now : Int) (rd : HeaderRead) :
    ReturnPoint :=
  (SubSession.readRequestSteps { session with StartTick := now } rd).1

/-! ## Writing, statistics and liveness -/

/-- Modelled from the spec: `Connection.GetStat` of the transport collaborator,
the snapshot of its cumulative counters. -/
def Connection.GetStat (c : Connection) : Stat := c.stat

/-- Modelled from the spec: `Connection.Write(pkt)` of the transport
collaborator.  The payload is handed to the transport, which reports `err`
(`none` when the write succeeded); the counters are advanced by the transport
on its own and are read through `GetStat`. -/
def Connection.Write (c : Connection) (pkt : GoString) (err : Option GoError) :
    Connection × Option GoError :=
  ({ c with wrote := c.wrote ++ [pkt] }, err)

/-- Modelled from the spec: the `Tag` of package `httpflv`, one framed payload
unit; `Raw` holds its bytes. -/
structure Tag where
  Raw : GoString := []
  deriving DecidableEq, Repr

/-- The response preamble that Go `init` builds once: `server` is the constant
`base.LALHTTPFLVSubSessionServer`. -/
def flvHTTPResponseHeader (server : GoString) : GoString :=
  "HTTP/1.1 200 OK\r\n".toList ++
    "Server: ".toList ++ server ++ "\r\n".toList ++
    "Cache-Control: no-cache\r\n".toList ++
    "Content-Type: video/x-flv\r\n".toList ++
    "Connection: close\r\n".toList ++
    "Expires: -1\r\n".toList ++
    "Pragma: no-cache\r\n".toList ++
    "Access-Control-Allow-Origin: *\r\n".toList ++
    "\r\n".toList

/-- Go `SubSession.WriteRawPacket`: one `Write` on the transport, whose results
are discarded; `err` is the error that the transport reports. -/
def SubSession.WriteRawPacket (session : SubSession) (pkt : GoString)
    (err : Option GoError) : SubSession :=
  { session with conn := (session.conn.Write pkt err).1 }

/-- Go `SubSession.WriteHTTPResponseHeader`. -/
def SubSession.WriteHTTPResponseHeader (session : SubSession) (server : GoString)
    (err : Option GoError) : SubSession :=
  session.WriteRawPacket (flvHTTPResponseHeader server) err

/-- Go `SubSession.WriteFLVHeader`: `FLVHeader` is the package variable of that
name, the fixed header of the container. -/
def SubSession.WriteFLVHeader (session : SubSession) (FLVHeader : GoString)
    (err : Option GoError) : SubSession :=
  session.WriteRawPacket FLVHeader err

/-- Go `SubSession.WriteTag`, for a tag that is not `nil`. -/
def SubSession.WriteTag (session : SubSession) (tag : Tag) (err : Option GoError) :
    SubSession :=
  session.WriteRawPacket tag.Raw err

/-- Subtraction of `uint64` values, which wraps modulo 2^64. -/
def sub64 (a b : Nat) : Nat := (a + (2 ^ 64 - b % 2 ^ 64)) % 2 ^ 64

/-- Multiplication of `uint64` values, which wraps modulo 2^64. -/
def mul64 (a b : Nat) : Nat := (a * b) % 2 ^ 64

/-- Go `int(x)` for a `uint64` value `x`, with `int` of 64 bits. -/
def toInt (x : Nat) : Int :=
  if x % 2 ^ 64 < 2 ^ 63 then ((x % 2 ^ 64 : Nat) : Int) else ((x % 2 ^ 64 : Nat) : Int) - 2 ^ 64

/-- Go `SubSession.GetStat`: the record that is returned, and the session,
whose record has taken the counters of the transport. -/
def SubSession.GetStat (session : SubSession) : StatSub × SubSession :=
  let currStat := session.conn.GetStat
  let stat := { session.stat with
    ReadBytesSum := currStat.ReadBytesSum
    WroteBytesSum := currStat.WroteBytesSum }
  (stat, { session with stat := stat })

/-- Go `SubSession.UpdateStat(interval)`: `none` is the run-time panic of the
integer division by zero, which happens before anything is stored. -/
def SubSession.UpdateStat (session : SubSession) (interval : Nat) : Option SubSession :=
  let currStat := session.conn.GetStat
  let diffWroteBytesSum := sub64 currStat.WroteBytesSum session.prevConnStat.WroteBytesSum
  if interval = 0 then none
  else
    some { session with
      stat := { session.stat with
        Bitrate := toInt (mul64 diffWroteBytesSum 8 / 1024 / interval) }
      prevConnStat := currStat }

/-- Go `SubSession.IsAlive(interval)`: the result and the session with the new
stale baseline. -/
def SubSession.IsAlive (session : SubSession) (_interval : Nat) : Bool × SubSession :=
  let currStat := session.conn.GetStat
  match session.staleStat with
  | none => (true, { session with staleStat := some currStat })
  | some stale =>
    (!(sub64 currStat.WroteBytesSum stale.WroteBytesSum == 0),
      { session with staleStat := some currStat })

/-! ## Sequences of monitoring calls -/

/-- A call of the monitoring loop. -/
inductive StatCall where
  | isAlive (interval : Nat)
  | updateStat (interval : Nat)
  | getStat
  deriving DecidableEq, Repr

/-- What a monitoring call gives back: the liveness, the bitrate that was
stored, or the statistics record. -/
inductive StatOut where
  | alive (b : Bool)
  | bitrate (b : Int)
  | record (s : StatSub)
  deriving DecidableEq, Repr

/-- The session once the counters of its transport have moved to `st`. -/
def SubSession.withCounters (session : SubSession) (st : Stat) : SubSession :=
  { session with conn := { session.conn with stat := st } }

/-- One monitoring call, made when the counters of the transport are `st`. -/
def stepCall (session : SubSession) (st : Stat) : StatCall → Option (StatOut × SubSession)
  | .isAlive interval =>
    some (.alive ((session.withCounters st).IsAlive interval).1,
      ((session.withCounters st).IsAlive interval).2)
  | .updateStat interval =>
    match (session.withCounters st).UpdateStat interval with
    | none => none
    | some s => some (.bitrate s.stat.Bitrate, s)
  | .getStat =>
    some (.record (session.withCounters st).GetStat.1, (session.withCounters st).GetStat.2)

/-- A sequence of monitoring calls, each with the counters of the transport at
the time of the call; `none` when a call panics. -/
def runCalls : SubSession → List (Stat × StatCall) → Option (List StatOut × SubSession)
  | session, [] => some ([], session)
  | session, (st, call) :: rest =>
    match stepCall session st call with
    | none => none
    | some (out, s) =>
      match runCalls s rest with
      | none => none
      | some (outs, s2) => some (out :: outs, s2)

/-- The liveness results among the results of a sequence of calls. -/
def aliveResults : List StatOut → List Bool
  | [] => []
  | .alive b :: rest => b :: aliveResults rest
  | _ :: rest => aliveResults rest

/-- The bitrates among the results of a sequence of calls. -/
def bitrateResults : List StatOut → List Int
  | [] => []
  | .bitrate b :: rest => b :: bitrateResults rest
  | _ :: rest => bitrateResults rest

/-- Whether a call is a liveness check. -/
def StatCall.isAliveCall : StatCall → Bool
  | .isAlive _ => true
  | _ => false

/-! ## Request targets -/

/-- The request target `/app/name.flv`, followed by `?query` when there is one. -/
def flvTarget (app name : GoString) (query : Option GoString) : GoString :=
  '/' :: (app ++ '/' :: (name ++ ['.', 'f', 'l', 'v'])) ++
    (match query with
    | none => []
    | some q => '?' :: q)

/-! ## Lemmas on the library functions and on the branches of `ReadRequest` -/

open strings

theorem Split_cons (c : Char) (cs : GoString) (sep : Char) :
    Split (c :: cs) sep =
      if c = sep then [] :: Split cs sep
      else
        match Split cs sep with
        | [] => [[c]]
        | h :: t => (c :: h) :: t := rfl

theorem Split_ne_nil (s : GoString) (sep : Char) : Split s sep ≠ [] := by
  induction s with
  | nil => simp [Split]
  | cons c cs ih =>
    rw [Split_cons]
    split
    · simp
    · split
      · simp
      · simp

theorem Split_length (s : GoString) (sep : Char) :
    (Split s sep).length = s.count sep + 1 := by
  induction s with
  | nil => simp [Split]
  | cons c cs ih =>
    rw [Split_cons]
    by_cases h : c = sep
    · subst h; simp [ih]
    · simp only [h, if_false]
      have hc : List.count sep (c :: cs) = List.count sep cs := by
        rw [List.count_cons]; simp [h]
      rw [hc, ← ih]
      cases hs : Split cs sep with
      | nil => exact absurd hs (Split_ne_nil cs sep)
      | cons a t => simp

theorem Split_of_not_mem (s : GoString) (sep : Char) (h : sep ∉ s) : Split s sep = [s] := by
  induction s with
  | nil => simp [Split]
  | cons c cs ih =>
    have hc : ¬ c = sep := fun e => h (by simp [e])
    have hcs : sep ∉ cs := fun e => h (by simp [e])
    rw [Split_cons]
    simp [hc, ih hcs]

theorem Split_append (a b : GoString) (sep : Char) (h : sep ∉ a) :
    Split (a ++ sep :: b) sep = a :: Split b sep := by
  induction a with
  | nil => simp [Split]
  | cons c cs ih =>
    have hc : ¬ c = sep := fun e => h (by simp [e])
    have hcs : sep ∉ cs := fun e => h (by simp [e])
    rw [List.cons_append, Split_cons]
    simp [hc, ih hcs]

theorem Split_head (s : GoString) (sep : Char) :
    (Split s sep).getD 0 [] = before s sep := by
  induction s with
  | nil => simp [Split, before]
  | cons c cs ih =>
    rw [Split_cons]
    by_cases h : c = sep
    · subst h; simp [before]
    · simp only [h, if_false]
      cases hs : Split cs sep with
      | nil => exact absurd hs (Split_ne_nil cs sep)
      | cons a t =>
        rw [hs] at ih
        simp at ih
        simp [before, h, ih]

theorem Split_last_suffix (suf : GoString) (sep : Char) (hne : suf ≠ []) (hsep : sep ∉ suf) :
    ∀ s : GoString, suf <:+ s → ∃ init last, Split s sep = init ++ [last] ∧ suf <:+ last := by
  intro s
  induction s with
  | nil =>
    intro h
    exact absurd (List.eq_nil_of_suffix_nil h) hne
  | cons c cs ih =>
    intro h
    rcases List.suffix_cons_iff.mp h with heq | hsuf
    · refine ⟨[], c :: cs, ?_, by rw [heq]⟩
      rw [List.nil_append]
      exact Split_of_not_mem _ _ (heq ▸ hsep)
    · obtain ⟨init, last, hsp, hl⟩ := ih hsuf
      rw [Split_cons]
      by_cases hc : c = sep
      · simp only [hc, if_true]
        exact ⟨[] :: init, last, by simp [hsp], hl⟩
      · simp only [hc, if_false, hsp]
        cases init with
        | nil => exact ⟨[], c :: last, by simp, List.suffix_cons_iff.mpr (Or.inr hl)⟩
        | cons i is => exact ⟨(c :: i) :: is, last, by simp, hl⟩

/-- A path that ends in `.flv` and has three segments has a dot in the third. -/
theorem third_segment_has_dot (p : GoString)
    (hsuf : HasSuffix p ['.', 'f', 'l', 'v'] = true)
    (hlen : (Split p '/').length = 3) :
    2 ≤ (Split ((Split p '/').getD 2 []) '.').length := by
  have hs : ['.', 'f', 'l', 'v'] <:+ p := by
    simpa [HasSuffix] using hsuf
  obtain ⟨init, last, hsp, hl⟩ :=
    Split_last_suffix ['.', 'f', 'l', 'v'] '/' (by simp) (by decide) p hs
  rw [hsp] at hlen ⊢
  have hi : init.length = 2 := by simpa using hlen
  have hget : (init ++ [last]).getD 2 [] = last := by
    match init, hi with
    | [a, b], _ => rfl
  rw [hget, Split_length]
  have hmem : '.' ∈ last := hl.subset (by simp)
  have := List.count_pos_iff.mpr hmem
  omega

theorem readRequestBody_get (session : SubSession) (rd : HeaderRead) (u : url.URL)
    (hrd : rd.err = none)
    (hline : (ParseHTTPRequestLine rd.firstLine).err = none)
    (hget : (ParseHTTPRequestLine rd.firstLine).method = ['G', 'E', 'T'])
    (hurl : url.Parse (ParseHTTPRequestLine rd.firstLine).uri = .ok u) :
    session.readRequestBody rd =
      if !HasSuffix u.Path ['.', 'f', 'l', 'v'] then
        (some .ErrHTTPFLV, { session with
          Headers := rd.headers
          StreamNameWithRawQuery := (ParseHTTPRequestLine rd.firstLine).uri })
      else if (Split u.Path '/').length != 3 then
        (some .ErrHTTPFLV, { session with
          Headers := rd.headers
          StreamNameWithRawQuery := (ParseHTTPRequestLine rd.firstLine).uri })
      else
        (none, { session with
          Headers := rd.headers
          StreamNameWithRawQuery := (ParseHTTPRequestLine rd.firstLine).uri
          AppName := (Split u.Path '/').getD 1 []
          StreamName := before ((Split u.Path '/').getD 2 []) '.'
          RawQuery := u.RawQuery }) := by
  unfold SubSession.readRequestBody
  simp only [hrd, hline, hget, hurl]
  by_cases h1 : HasSuffix u.Path ['.', 'f', 'l', 'v'] = true
  · by_cases h2 : (Split u.Path '/').length = 3
    · have h3 := third_segment_has_dot u.Path h1 h2
      have h4 : ¬ (Split ((Split u.Path '/').getD 2 []) '.').length < 2 := by omega
      simp only [h1, h2, h4, Split_head, Bool.not_true, Bool.false_eq_true, if_false,
        bne_self_eq_false]
    · have h2b : ((Split u.Path '/').length != 3) = true := by simpa using h2
      simp only [h1, h2b, Bool.not_true, Bool.false_eq_true, if_false, if_true,
        bne_self_eq_false]
  · have h1b : (!HasSuffix u.Path ['.', 'f', 'l', 'v']) = true := by simpa using h1
    simp only [h1b, if_true, bne_self_eq_false, Bool.false_eq_true, if_false]

theorem readRequestBody_read_err (session : SubSession) (rd : HeaderRead) (e : GoError)
    (hrd : rd.err = some e) :
    session.readRequestBody rd = (some e, { session with Headers := rd.headers }) := by
  unfold SubSession.readRequestBody
  simp only [hrd]

theorem readRequestBody_line_err (session : SubSession) (rd : HeaderRead) (e : GoError)
    (hrd : rd.err = none) (hline : (ParseHTTPRequestLine rd.firstLine).err = some e) :
    session.readRequestBody rd =
      (some e, { session with
        Headers := rd.headers
        StreamNameWithRawQuery := (ParseHTTPRequestLine rd.firstLine).uri }) := by
  unfold SubSession.readRequestBody
  simp only [hrd, hline]

theorem readRequestBody_not_get (session : SubSession) (rd : HeaderRead)
    (hrd : rd.err = none) (hline : (ParseHTTPRequestLine rd.firstLine).err = none)
    (hget : (ParseHTTPRequestLine rd.firstLine).method ≠ ['G', 'E', 'T']) :
    session.readRequestBody rd =
      (some .ErrHTTPFLV, { session with
        Headers := rd.headers
        StreamNameWithRawQuery := (ParseHTTPRequestLine rd.firstLine).uri }) := by
  unfold SubSession.readRequestBody
  have hb : ((ParseHTTPRequestLine rd.firstLine).method != ['G', 'E', 'T']) = true := by
    simpa using hget
  simp only [hrd, hline, hb, if_true]

theorem readRequestBody_url_err (session : SubSession) (rd : HeaderRead) (e : GoError)
    (hrd : rd.err = none) (hline : (ParseHTTPRequestLine rd.firstLine).err = none)
    (hget : (ParseHTTPRequestLine rd.firstLine).method = ['G', 'E', 'T'])
    (hurl : url.Parse (ParseHTTPRequestLine rd.firstLine).uri = .error e) :
    session.readRequestBody rd =
      (some e, { session with
        Headers := rd.headers
        StreamNameWithRawQuery := (ParseHTTPRequestLine rd.firstLine).uri }) := by
  unfold SubSession.readRequestBody
  simp only [hrd, hline, hget, hurl, bne_self_eq_false, Bool.false_eq_true, if_false]

theorem ReadRequest_of_body_err (session : SubSession) (now : Int) (rd : HeaderRead)
    (e : GoError) (s2 : SubSession)
    (h : SubSession.readRequestBody { session with StartTick := now } rd = (some e, s2)) :
    session.ReadRequest now rd = (some e, s2.Dispose) := by
  unfold SubSession.ReadRequest
  rw [h]

theorem ReadRequest_of_body_nil (session : SubSession) (now : Int) (rd : HeaderRead)
    (s2 : SubSession)
    (h : SubSession.readRequestBody { session with StartTick := now } rd = (none, s2)) :
    session.ReadRequest now rd = (none, s2) := by
  unfold SubSession.ReadRequest
  rw [h]

/-- The error that `url.Parse` returns is a `*url.Error`, never `ErrHTTPFLV`. -/
theorem Parse_error_ne (t : GoString) (e : GoError) (h : url.Parse t = .error e) :
    e ≠ .ErrHTTPFLV := by
  unfold url.Parse at h
  split at h
  · cases h; simp
  · split at h
    · cases h
    · split at h
      · cases h; simp
      · cases h

theorem ReadRequest_get (session : SubSession) (now : Int) (rd : HeaderRead) (u : url.URL)
    (hrd : rd.err = none)
    (hline : (ParseHTTPRequestLine rd.firstLine).err = none)
    (hget : (ParseHTTPRequestLine rd.firstLine).method = ['G', 'E', 'T'])
    (hurl : url.Parse (ParseHTTPRequestLine rd.firstLine).uri = .ok u) :
    session.ReadRequest now rd =
      if HasSuffix u.Path ['.', 'f', 'l', 'v'] = true ∧ (Split u.Path '/').length = 3 then
        (none, { session with
          StartTick := now
          Headers := rd.headers
          StreamNameWithRawQuery := (ParseHTTPRequestLine rd.firstLine).uri
          AppName := (Split u.Path '/').getD 1 []
          StreamName := before ((Split u.Path '/').getD 2 []) '.'
          RawQuery := u.RawQuery })
      else
        (some .ErrHTTPFLV, SubSession.Dispose { session with
          StartTick := now
          Headers := rd.headers
          StreamNameWithRawQuery := (ParseHTTPRequestLine rd.firstLine).uri }) := by
  have hb := readRequestBody_get { session with StartTick := now } rd u hrd hline hget hurl
  by_cases h1 : HasSuffix u.Path ['.', 'f', 'l', 'v'] = true
  · by_cases h2 : (Split u.Path '/').length = 3
    · rw [if_pos ⟨h1, h2⟩]
      apply ReadRequest_of_body_nil
      rw [hb]
      simp only [h1, h2, Bool.not_true, Bool.false_eq_true, if_false, bne_self_eq_false]
    · rw [if_neg (fun h => h2 h.2)]
      apply ReadRequest_of_body_err
      rw [hb]
      have h2b : ((Split u.Path '/').length != 3) = true := by simpa using h2
      simp only [h1, h2b, Bool.not_true, Bool.false_eq_true, if_false, if_true]
  · rw [if_neg (fun h => h1 h.1)]
    apply ReadRequest_of_body_err
    rw [hb]
    have h1b : (!HasSuffix u.Path ['.', 'f', 'l', 'v']) = true := by simpa using h1
    simp only [h1b, if_true]

theorem ReadRequest_read_err (session : SubSession) (now : Int) (rd : HeaderRead) (e : GoError)
    (hrd : rd.err = some e) :
    session.ReadRequest now rd =
      (some e, SubSession.Dispose { session with StartTick := now, Headers := rd.headers }) :=
  ReadRequest_of_body_err _ _ _ _ _ (readRequestBody_read_err _ rd e hrd)

theorem ReadRequest_line_err (session : SubSession) (now : Int) (rd : HeaderRead) (e : GoError)
    (hrd : rd.err = none) (hline : (ParseHTTPRequestLine rd.firstLine).err = some e) :
    session.ReadRequest now rd =
      (some e, SubSession.Dispose { session with
        StartTick := now
        Headers := rd.headers
        StreamNameWithRawQuery := (ParseHTTPRequestLine rd.firstLine).uri }) :=
  ReadRequest_of_body_err _ _ _ _ _ (readRequestBody_line_err _ rd e hrd hline)

theorem ReadRequest_not_get (session : SubSession) (now : Int) (rd : HeaderRead)
    (hrd : rd.err = none) (hline : (ParseHTTPRequestLine rd.firstLine).err = none)
    (hget : (ParseHTTPRequestLine rd.firstLine).method ≠ ['G', 'E', 'T']) :
    session.ReadRequest now rd =
      (some .ErrHTTPFLV, SubSession.Dispose { session with
        StartTick := now
        Headers := rd.headers
        StreamNameWithRawQuery := (ParseHTTPRequestLine rd.firstLine).uri }) :=
  ReadRequest_of_body_err _ _ _ _ _ (readRequestBody_not_get _ rd hrd hline hget)

theorem ReadRequest_url_err (session : SubSession) (now : Int) (rd : HeaderRead) (e : GoError)
    (hrd : rd.err = none) (hline : (ParseHTTPRequestLine rd.firstLine).err = none)
    (hget : (ParseHTTPRequestLine rd.firstLine).method = ['G', 'E', 'T'])
    (hurl : url.Parse (ParseHTTPRequestLine rd.firstLine).uri = .error e) :
    session.ReadRequest now rd =
      (some e, SubSession.Dispose { session with
        StartTick := now
        Headers := rd.headers
        StreamNameWithRawQuery := (ParseHTTPRequestLine rd.firstLine).uri }) :=
  ReadRequest_of_body_err _ _ _ _ _ (readRequestBody_url_err _ rd e hrd hline hget hurl)

/-- A request that `ReadRequest` accepts went through every check: the header
block was read, the line was tokenized, the method is `GET`, the target parsed
as a URL whose path ends in `.flv` and has three segments. -/
theorem ReadRequest_nil_inv (session : SubSession) (now : Int) (rd : HeaderRead)
    (h : (session.ReadRequest now rd).1 = none) :
    rd.err = none ∧ (ParseHTTPRequestLine rd.firstLine).err = none ∧
      (ParseHTTPRequestLine rd.firstLine).method = ['G', 'E', 'T'] ∧
      ∃ u, url.Parse (ParseHTTPRequestLine rd.firstLine).uri = .ok u ∧
        HasSuffix u.Path ['.', 'f', 'l', 'v'] = true ∧ (Split u.Path '/').length = 3 := by
  cases hrd : rd.err with
  | some e => rw [ReadRequest_read_err _ _ _ e hrd] at h; cases h
  | none =>
    cases hline : (ParseHTTPRequestLine rd.firstLine).err with
    | some e => rw [ReadRequest_line_err _ _ _ e hrd hline] at h; cases h
    | none =>
      by_cases hget : (ParseHTTPRequestLine rd.firstLine).method = ['G', 'E', 'T']
      · cases hurl : url.Parse (ParseHTTPRequestLine rd.firstLine).uri with
        | error e => rw [ReadRequest_url_err _ _ _ e hrd hline hget hurl] at h; cases h
        | ok u =>
          rw [ReadRequest_get _ _ _ u hrd hline hget hurl] at h
          by_cases hc : HasSuffix u.Path ['.', 'f', 'l', 'v'] = true ∧ (Split u.Path '/').length = 3
          · exact ⟨rfl, rfl, hget, u, rfl, hc⟩
          · rw [if_neg hc] at h; cases h
      · rw [ReadRequest_not_get _ _ _ hrd hline hget] at h; cases h

theorem before_of_not_mem (s : GoString) (sep : Char) (h : sep ∉ s) : before s sep = s := by
  unfold before
  rw [List.takeWhile_eq_self_iff]
  intro c hc
  have : c ≠ sep := fun e => h (e ▸ hc)
  simpa using this

theorem after_of_not_mem (s : GoString) (sep : Char) (h : sep ∉ s) : after s sep = [] := by
  unfold after
  have : List.dropWhile (fun c => c != sep) s = [] := by
    rw [List.dropWhile_eq_nil_iff]
    intro c hc
    have : c ≠ sep := fun e => h (e ▸ hc)
    simpa using this
  rw [this]; rfl

theorem before_append (a b : GoString) (sep : Char) (h : sep ∉ a) :
    before (a ++ sep :: b) sep = a := by
  induction a with
  | nil => simp [before]
  | cons c cs ih =>
    have hc : ¬ c = sep := fun e => h (by simp [e])
    have hcs : sep ∉ cs := fun e => h (by simp [e])
    have := ih hcs
    unfold before at this ⊢
    simp [hc, this]

theorem after_append (a b : GoString) (sep : Char) (h : sep ∉ a) :
    after (a ++ sep :: b) sep = b := by
  induction a with
  | nil => simp [after]
  | cons c cs ih =>
    have hc : ¬ c = sep := fun e => h (by simp [e])
    have hcs : sep ∉ cs := fun e => h (by simp [e])
    have := ih hcs
    unfold after at this ⊢
    simp [hc, this]

theorem unescapeScan_path (s : GoString) (h : '%' ∉ s) :
    url.unescapeScan url.encoding.encodePath s = .ok () := by
  induction s with
  | nil => rfl
  | cons c cs ih =>
    have hc : ¬ c = '%' := fun e => h (by simp [e])
    have hcs : '%' ∉ cs := fun e => h (by simp [e])
    unfold url.unescapeScan
    simp only [hc, if_false]
    simpa using ih hcs

theorem unescape_path (s : GoString) (h : '%' ∉ s) :
    url.unescape s url.encoding.encodePath = .ok s := by
  unfold url.unescape
  rw [unescapeScan_path s h]
  simp [h]

theorem getScheme_slash (s : GoString) : url.getScheme ('/' :: s) = .ok ([], '/' :: s) := by
  unfold url.getScheme
  rw [url.getSchemeLoop]
  have h1 : (url.isLower '/' || url.isUpper '/') = false := by decide
  have h2 : (url.isDigit '/' || decide ('/' = '+') || decide ('/' = '-') || decide ('/' = '.')) = false := by decide
  have h3 : ¬ ('/' = ':') := by decide
  simp only [h1, h2, h3, Bool.false_eq_true, if_false]

theorem HasPrefix_slash (r : GoString) : HasPrefix ('/' :: r) ['/'] = true := by
  simp [HasPrefix, List.isPrefixOf]

theorem HasPrefix_slash_slash (r : GoString) (h : r.head? ≠ some '/') :
    HasPrefix ('/' :: r) ['/', '/'] = false := by
  cases r with
  | nil => simp [HasPrefix, List.isPrefixOf]
  | cons c cs =>
    have hc : ¬ c = '/' := fun e => h (by simp [e])
    have hc2 : ¬ '/' = c := fun e => hc e.symm
    simp [HasPrefix, List.isPrefixOf, hc2]

theorem parseRest_path (u : url.URL) (r : GoString) (hs : u.Scheme = [])
    (h : r.head? ≠ some '/') (hp : '%' ∉ r) :
    url.parseRest u ('/' :: r) false = .ok { u with Path := '/' :: r } := by
  have hp2 : '%' ∉ '/' :: r := by
    intro hm
    rcases List.mem_cons.mp hm with e | e
    · exact absurd e (by decide)
    · exact hp e
  unfold url.parseRest
  simp only [HasPrefix_slash, HasPrefix_slash_slash r h, hs, Bool.not_true, Bool.false_and,
    Bool.and_false, Bool.false_eq_true, if_false, url.setPath, unescape_path _ hp2]

theorem ctl_cons (c : Char) (s : GoString) :
    url.stringContainsCTLByte (c :: s) =
      ((decide (c.toNat < 32) || decide (c.toNat = 127)) || url.stringContainsCTLByte s) := by
  simp [url.stringContainsCTLByte]

theorem ctl_append (a b : GoString) :
    url.stringContainsCTLByte (a ++ b) =
      (url.stringContainsCTLByte a || url.stringContainsCTLByte b) := by
  simp [url.stringContainsCTLByte]

theorem parse_no_query (r : GoString) (hctl : url.stringContainsCTLByte r = false)
    (h : r.head? ≠ some '/') (hp : '%' ∉ r) (hq : '?' ∉ r) :
    url.parse ('/' :: r) false = .ok { Path := '/' :: r } := by
  have hq2 : '?' ∉ '/' :: r := by
    intro hm
    rcases List.mem_cons.mp hm with e | e
    · exact absurd e (by decide)
    · exact hq e
  have hc : url.stringContainsCTLByte ('/' :: r) = false := by
    rw [ctl_cons, hctl]; decide
  have hsuf : HasSuffix ('/' :: r) ['?'] = false := by
    cases hb : HasSuffix ('/' :: r) ['?'] with
    | false => rfl
    | true =>
      have : ['?'] <:+ '/' :: r := by simpa [HasSuffix] using hb
      exact absurd (this.subset (by simp)) hq2
  have hstar : ¬ ('/' :: r = ['*']) := by
    intro e
    have := (List.cons.inj e).1
    exact absurd this (by decide)
  unfold url.parse
  simp only [hc, hstar, getScheme_slash, hsuf, before_of_not_mem _ _ hq2,
    after_of_not_mem _ _ hq2, Bool.false_eq_true, if_false, Bool.and_false, Bool.false_and,
    decide_False]
  rw [parseRest_path _ r (by rfl) h hp]
  rfl

theorem parse_query (r q : GoString) (hctl : url.stringContainsCTLByte r = false)
    (hctlq : url.stringContainsCTLByte q = false)
    (h : r.head? ≠ some '/') (hp : '%' ∉ r) (hq : '?' ∉ r) :
    url.parse ('/' :: r ++ '?' :: q) false =
      .ok { Path := '/' :: r, RawQuery := q, ForceQuery := decide (q = []) } := by
  have hq2 : '?' ∉ '/' :: r := by
    intro hm
    rcases List.mem_cons.mp hm with e | e
    · exact absurd e (by decide)
    · exact hq e
  have hc : url.stringContainsCTLByte ('/' :: (r ++ '?' :: q)) = false := by
    rw [ctl_cons, ctl_append, ctl_cons, hctl, hctlq]; decide
  have hstar : ¬ ('/' :: (r ++ '?' :: q) = ['*']) := by
    intro e
    have := (List.cons.inj e).1
    exact absurd this (by decide)
  have hcount : Count ('/' :: (r ++ '?' :: q)) '?' = q.count '?' + 1 := by
    have h0 : List.count '?' ('/' :: r) = 0 := List.count_eq_zero.mpr hq2
    have : '/' :: (r ++ '?' :: q) = ('/' :: r) ++ '?' :: q := rfl
    rw [Count, this, List.count_append, h0]
    simp
  rw [List.cons_append]
  unfold url.parse
  simp only [hc, hstar, getScheme_slash, Bool.false_eq_true, if_false, Bool.false_and,
    decide_False]
  cases q with
  | nil =>
    have hsuf : HasSuffix ('/' :: (r ++ ['?'])) ['?'] = true := by
      have : ['?'] <:+ '/' :: (r ++ ['?']) := ⟨'/' :: r, rfl⟩
      simpa [HasSuffix] using this
    have hdl : ('/' :: (r ++ ['?'])).dropLast = '/' :: r := by
      have : '/' :: (r ++ ['?']) = ('/' :: r) ++ ['?'] := rfl
      rw [this, List.dropLast_concat]
    have hcnt : (Count ('/' :: (r ++ ['?'])) '?' == 1) = true := by
      rw [hcount]; rfl
    simp only [hsuf, hcnt, Bool.and_self, if_true, hdl]
    rw [parseRest_path _ r (by rfl) h hp]
    rfl
  | cons c cs =>
    have hcond : (HasSuffix ('/' :: (r ++ '?' :: c :: cs)) ['?']
        && Count ('/' :: (r ++ '?' :: c :: cs)) '?' == 1) = false := by
      cases hb : HasSuffix ('/' :: (r ++ '?' :: c :: cs)) ['?'] with
      | false => rfl
      | true =>
        have hs : ['?'] <:+ ('/' :: r ++ ['?']) ++ (c :: cs) := by
          have : ['?'] <:+ '/' :: (r ++ '?' :: c :: cs) := by simpa [HasSuffix] using hb
          simpa using this
        have hs2 : ['?'] <:+ c :: cs := by
          obtain ⟨t, ht⟩ := hs
          have hlast := congrArg List.getLast? ht
          rw [List.getLast?_append_of_ne_nil _ (by simp),
            List.getLast?_append_of_ne_nil _ (by simp)] at hlast
          obtain ⟨init, hinit⟩ : ∃ init, c :: cs = init ++ ['?'] := by
            refine ⟨(c :: cs).dropLast, ?_⟩
            have hl : (c :: cs).getLast? = some '?' := by simpa using hlast.symm
            have := List.dropLast_append_getLast? '?' hl
            exact this.symm
          exact ⟨init, hinit.symm⟩
        have hm : '?' ∈ c :: cs := hs2.subset (by simp)
        have := List.count_pos_iff.mpr hm
        rw [hcount]
        simp only [Bool.true_and]
        have hne : List.count '?' (c :: cs) + 1 ≠ 1 := by omega
        simpa using hne
    have hb4 : before ('/' :: (r ++ '?' :: c :: cs)) '?' = '/' :: r :=
      before_append ('/' :: r) (c :: cs) '?' hq2
    have ha4 : after ('/' :: (r ++ '?' :: c :: cs)) '?' = c :: cs :=
      after_append ('/' :: r) (c :: cs) '?' hq2
    simp only [hcond, Bool.false_eq_true, if_false, hb4, ha4]
    rw [parseRest_path _ r (by rfl) h hp]
    rfl

theorem Parse_of_parse (t : GoString) (u : url.URL) (hfrag : '#' ∉ t)
    (h : url.parse t false = .ok u) : url.Parse t = .ok u := by
  unfold url.Parse
  rw [before_of_not_mem t '#' hfrag, after_of_not_mem t '#' hfrag, h]
  simp

theorem Split_three (first app seg : GoString) (h0 : '/' ∉ first) (h1 : '/' ∉ app)
    (h2 : '/' ∉ seg) :
    Split (first ++ '/' :: (app ++ '/' :: seg)) '/' = [first, app, seg] := by
  rw [Split_append _ _ _ h0, Split_append _ _ _ h1, Split_of_not_mem _ _ h2]

theorem ReadRequest_three_segments (session : SubSession) (now : Int) (rd : HeaderRead)
    (u : url.URL) (first app seg : GoString)
    (hrd : rd.err = none)
    (hline : (ParseHTTPRequestLine rd.firstLine).err = none)
    (hget : (ParseHTTPRequestLine rd.firstLine).method = ['G', 'E', 'T'])
    (hurl : url.Parse (ParseHTTPRequestLine rd.firstLine).uri = .ok u)
    (hpath : u.Path = first ++ '/' :: (app ++ '/' :: seg))
    (h0 : '/' ∉ first) (h1 : '/' ∉ app) (h2 : '/' ∉ seg)
    (hsuf : ['.', 'f', 'l', 'v'] <:+ seg) :
    session.ReadRequest now rd =
      (none, { session with
        StartTick := now
        Headers := rd.headers
        StreamNameWithRawQuery := (ParseHTTPRequestLine rd.firstLine).uri
        AppName := app
        StreamName := before seg '.'
        RawQuery := u.RawQuery }) := by
  have hsp := Split_three first app seg h0 h1 h2
  have hs : HasSuffix u.Path ['.', 'f', 'l', 'v'] = true := by
    have : ['.', 'f', 'l', 'v'] <:+ u.Path := by
      rw [hpath]
      obtain ⟨t, ht⟩ := hsuf
      exact ⟨first ++ '/' :: (app ++ '/' :: t), by simp [← ht]⟩
    simpa [HasSuffix] using this
  have hl : (Split u.Path '/').length = 3 := by rw [hpath, hsp]; rfl
  rw [ReadRequest_get session now rd u hrd hline hget hurl, if_pos ⟨hs, hl⟩, hpath, hsp]
  rfl

theorem Parse_flvTarget (app name : GoString) (query : Option GoString)
    (happ : app ≠ [])
    (happc : ∀ c ∈ app, c ≠ '/' ∧ c ≠ '.' ∧ c ≠ '?' ∧ c ≠ '#' ∧ c ≠ '%')
    (hnamec : ∀ c ∈ name, c ≠ '/' ∧ c ≠ '.' ∧ c ≠ '?' ∧ c ≠ '#' ∧ c ≠ '%')
    (hctl : url.stringContainsCTLByte (flvTarget app name query) = false)
    (hfrag : ∀ q, query = some q → '#' ∉ q) :
    url.Parse (flvTarget app name query) =
      .ok { Path := '/' :: (app ++ '/' :: (name ++ ['.', 'f', 'l', 'v']))
            RawQuery := query.getD []
            ForceQuery := decide (query = some []) } := by
  have hnot : ∀ x : Char, x ≠ '/' → x ≠ '.' → x ≠ 'f' → x ≠ 'l' → x ≠ 'v' →
      (∀ c ∈ app, c ≠ x) → (∀ c ∈ name, c ≠ x) →
      x ∉ app ++ '/' :: (name ++ ['.', 'f', 'l', 'v']) := by
    intro x hx1 hx2 hx3 hx4 hx5 ha hn hm
    simp only [List.mem_append, List.mem_cons, List.mem_singleton, List.not_mem_nil,
      or_false] at hm
    rcases hm with hm | hm | hm | hm | hm | hm | hm
    · exact ha x hm rfl
    · exact hx1 hm
    · exact hn x hm rfl
    · exact hx2 hm
    · exact hx3 hm
    · exact hx4 hm
    · exact hx5 hm
  have hpct := hnot '%' (by decide) (by decide) (by decide) (by decide) (by decide)
    (fun c hc => (happc c hc).2.2.2.2) (fun c hc => (hnamec c hc).2.2.2.2)
  have hqm := hnot '?' (by decide) (by decide) (by decide) (by decide) (by decide)
    (fun c hc => (happc c hc).2.2.1) (fun c hc => (hnamec c hc).2.2.1)
  have hsh := hnot '#' (by decide) (by decide) (by decide) (by decide) (by decide)
    (fun c hc => (happc c hc).2.2.2.1) (fun c hc => (hnamec c hc).2.2.2.1)
  have hhead : (app ++ '/' :: (name ++ ['.', 'f', 'l', 'v'])).head? ≠ some '/' := by
    cases app with
    | nil => exact absurd rfl happ
    | cons c cs =>
      intro e
      have : c = '/' := by simpa using e
      exact (happc c (by simp)).1 this
  cases query with
  | none =>
    have ht : flvTarget app name none = '/' :: (app ++ '/' :: (name ++ ['.', 'f', 'l', 'v'])) := by
      simp [flvTarget]
    rw [ht] at hctl ⊢
    have hctl2 : url.stringContainsCTLByte (app ++ '/' :: (name ++ ['.', 'f', 'l', 'v'])) = false := by
      rw [ctl_cons] at hctl
      simpa using hctl
    apply Parse_of_parse
    · intro hm
      rcases List.mem_cons.mp hm with e | e
      · exact absurd e (by decide)
      · exact hsh e
    · rw [parse_no_query _ hctl2 hhead hpct hqm]
      rfl
  | some q =>
    have ht : flvTarget app name (some q) =
        '/' :: (app ++ '/' :: (name ++ ['.', 'f', 'l', 'v'])) ++ '?' :: q := by
      simp [flvTarget]
    rw [ht] at hctl ⊢
    have hctl2 : url.stringContainsCTLByte (app ++ '/' :: (name ++ ['.', 'f', 'l', 'v'])) = false
        ∧ url.stringContainsCTLByte q = false := by
      rw [List.cons_append, ctl_cons, ctl_append, ctl_cons] at hctl
      simpa using hctl
    apply Parse_of_parse
    · intro hm
      rcases List.mem_append.mp hm with e | e
      · rcases List.mem_cons.mp e with e | e
        · exact absurd e (by decide)
        · exact hsh e
      · rcases List.mem_cons.mp e with e | e
        · exact absurd e (by decide)
        · exact hfrag q rfl e
    · rw [parse_query _ q hctl2.1 hctl2.2 hhead hpct hqm]
      simp

/-! ## The identity that a request resolves to -/

/-- C1 (as stated) fails: the application name `%41pp` is non-empty and holds
none of `/`, `.`, `?`, `#`, yet `GET /%41pp/name.flv HTTP/1.1` resolves to the
application name `App`, because `url.Parse` stores the path unescaped. -/
theorem ReadRequest_flv_target_escape_counterexample :
    ("%41pp".toList ≠ [] ∧ ∀ c ∈ "%41pp".toList, c ≠ '/' ∧ c ≠ '.' ∧ c ≠ '?' ∧ c ≠ '#') ∧
      (ParseHTTPRequestLine "GET /%41pp/name.flv HTTP/1.1".toList).uri
        = flvTarget "%41pp".toList "name".toList none ∧
      ((NewSubSession [] [] [] {}).ReadRequest 0
        { firstLine := "GET /%41pp/name.flv HTTP/1.1".toList }).1 = none ∧
      ((NewSubSession [] [] [] {}).ReadRequest 0
        { firstLine := "GET /%41pp/name.flv HTTP/1.1".toList }).2.AppName = "App".toList ∧
      "App".toList ≠ "%41pp".toList := by
  decide

/-- C1 (amended): for every GET request whose target is `/app/name.flv`,
optionally followed by `?query`, where `app` and `name` are non-empty and hold
none of `/`, `.`, `?`, `#`, `%`, the query holds no `#` and the target holds no
control byte, `ReadRequest` succeeds with `AppName = app`, `StreamName = name`
and `RawQuery = query` (empty when there is no query). -/
theorem ReadRequest_flv_target (session : SubSession) (now : Int) (rd : HeaderRead)
    (app name version : GoString) (query : Option GoString)
    (hrd : rd.err = none)
    (hline : ParseHTTPRequestLine rd.firstLine =
      { method := ['G', 'E', 'T'], uri := flvTarget app name query, version := version })
    (happ : app ≠ []) (_hname : name ≠ [])
    (happc : ∀ c ∈ app, c ≠ '/' ∧ c ≠ '.' ∧ c ≠ '?' ∧ c ≠ '#' ∧ c ≠ '%')
    (hnamec : ∀ c ∈ name, c ≠ '/' ∧ c ≠ '.' ∧ c ≠ '?' ∧ c ≠ '#' ∧ c ≠ '%')
    (hctl : url.stringContainsCTLByte (flvTarget app name query) = false)
    (hfrag : ∀ q, query = some q → '#' ∉ q) :
    (session.ReadRequest now rd).1 = none ∧
      (session.ReadRequest now rd).2.AppName = app ∧
      (session.ReadRequest now rd).2.StreamName = name ∧
      (session.ReadRequest now rd).2.RawQuery = query.getD [] := by
  have hp := Parse_flvTarget app name query happ happc hnamec hctl hfrag
  have h1 : '/' ∉ app := fun hm => (happc _ hm).1 rfl
  have h2 : '/' ∉ name ++ ['.', 'f', 'l', 'v'] := by
    intro hm
    rcases List.mem_append.mp hm with e | e
    · exact (hnamec _ e).1 rfl
    · exact absurd e (by decide)
  have hdot : '.' ∉ name := fun hm => (hnamec _ hm).2.1 rfl
  have hb : before (name ++ ['.', 'f', 'l', 'v']) '.' = name :=
    before_append name ['f', 'l', 'v'] '.' hdot
  have hr := ReadRequest_three_segments session now rd _ [] app (name ++ ['.', 'f', 'l', 'v'])
    hrd (by rw [hline]) (by rw [hline]) (by rw [hline]; exact hp) rfl (by simp) h1 h2
    ⟨name, rfl⟩
  rw [hr, hb]
  exact ⟨rfl, rfl, rfl, rfl⟩

/-- C1 witness: `GET /live/test123.flv?token=abc HTTP/1.1`. -/
theorem ReadRequest_flv_target_witness :
    ((NewSubSession [] [] [] {}).ReadRequest 0
        { firstLine := "GET /live/test123.flv?token=abc HTTP/1.1".toList }).1 = none ∧
      ((NewSubSession [] [] [] {}).ReadRequest 0
        { firstLine := "GET /live/test123.flv?token=abc HTTP/1.1".toList }).2.AppName
          = "live".toList ∧
      ((NewSubSession [] [] [] {}).ReadRequest 0
        { firstLine := "GET /live/test123.flv?token=abc HTTP/1.1".toList }).2.StreamName
          = "test123".toList ∧
      ((NewSubSession [] [] [] {}).ReadRequest 0
        { firstLine := "GET /live/test123.flv?token=abc HTTP/1.1".toList }).2.RawQuery
          = (some "token=abc".toList).getD [] :=
  ReadRequest_flv_target (NewSubSession [] [] [] {}) 0
    { firstLine := "GET /live/test123.flv?token=abc HTTP/1.1".toList }
    "live".toList "test123".toList "HTTP/1.1".toList (some "token=abc".toList)
    rfl (by decide) (by decide) (by decide) (by decide) (by decide) (by decide)
    (by intro q hq; cases hq; decide)

/-- C2: whenever `ReadRequest` returns `nil`, the target parsed as a URL,
`AppName` is the second `/`-separated segment of the URL path, `StreamName` is
the part of the third segment before its first `.`, and `RawQuery` is the query
component of the URL, unchanged. -/
theorem ReadRequest_nil_identity (session : SubSession) (now : Int) (rd : HeaderRead)
    (h : (session.ReadRequest now rd).1 = none) :
    ∃ u, url.Parse (ParseHTTPRequestLine rd.firstLine).uri = .ok u ∧
      (session.ReadRequest now rd).2.AppName = (Split u.Path '/').getD 1 [] ∧
      (session.ReadRequest now rd).2.StreamName = before ((Split u.Path '/').getD 2 []) '.' ∧
      (session.ReadRequest now rd).2.RawQuery = u.RawQuery := by
  obtain ⟨hrd, hline, hget, u, hurl, hc⟩ := ReadRequest_nil_inv session now rd h
  refine ⟨u, hurl, ?_⟩
  rw [ReadRequest_get session now rd u hrd hline hget hurl, if_pos hc]
  exact ⟨rfl, rfl, rfl⟩

/-- C2 witness: `GET /live/test123.flv?token=abc HTTP/1.1` is accepted, so its
identity is read off the parsed URL. -/
theorem ReadRequest_nil_identity_witness :
    ∃ u, url.Parse (ParseHTTPRequestLine "GET /live/test123.flv?token=abc HTTP/1.1".toList).uri
        = .ok u ∧
      ((NewSubSession [] [] [] {}).ReadRequest 7
        { firstLine := "GET /live/test123.flv?token=abc HTTP/1.1".toList }).2.AppName
          = (Split u.Path '/').getD 1 [] ∧
      ((NewSubSession [] [] [] {}).ReadRequest 7
        { firstLine := "GET /live/test123.flv?token=abc HTTP/1.1".toList }).2.StreamName
          = before ((Split u.Path '/').getD 2 []) '.' ∧
      ((NewSubSession [] [] [] {}).ReadRequest 7
        { firstLine := "GET /live/test123.flv?token=abc HTTP/1.1".toList }).2.RawQuery
          = u.RawQuery :=
  ReadRequest_nil_identity (NewSubSession [] [] [] {}) 7
    { firstLine := "GET /live/test123.flv?token=abc HTTP/1.1".toList } (by decide)

/-- C3: for every GET request whose URL path, split on `/`, does not consist
of exactly three segments, `ReadRequest` fails with `ErrHTTPFLV`. -/
theorem ReadRequest_rejects_segment_count (session : SubSession) (now : Int)
    (rd : HeaderRead) (u : url.URL)
    (hrd : rd.err = none)
    (hline : (ParseHTTPRequestLine rd.firstLine).err = none)
    (hget : (ParseHTTPRequestLine rd.firstLine).method = ['G', 'E', 'T'])
    (hurl : url.Parse (ParseHTTPRequestLine rd.firstLine).uri = .ok u)
    (hseg : (Split u.Path '/').length ≠ 3) :
    (session.ReadRequest now rd).1 = some .ErrHTTPFLV := by
  rw [ReadRequest_get session now rd u hrd hline hget hurl, if_neg (fun h => hseg h.2)]

/-- C3 witness: the paths `/x.flv` (one segment after the root) and
`/a/b/c.flv` (three segments after the root) are rejected. -/
theorem ReadRequest_rejects_segment_count_witness :
    ((NewSubSession [] [] [] {}).ReadRequest 0
        { firstLine := "GET /x.flv HTTP/1.1".toList }).1 = some .ErrHTTPFLV ∧
      ((NewSubSession [] [] [] {}).ReadRequest 0
        { firstLine := "GET /a/b/c.flv HTTP/1.1".toList }).1 = some .ErrHTTPFLV :=
  ⟨ReadRequest_rejects_segment_count (NewSubSession [] [] [] {}) 0
      { firstLine := "GET /x.flv HTTP/1.1".toList } { Path := "/x.flv".toList }
      rfl (by decide) (by decide) (by decide) (by decide),
    ReadRequest_rejects_segment_count (NewSubSession [] [] [] {}) 0
      { firstLine := "GET /a/b/c.flv HTTP/1.1".toList } { Path := "/a/b/c.flv".toList }
      rfl (by decide) (by decide) (by decide) (by decide)⟩

/-- The body with its `return` statement returns what the body returns. -/
theorem readRequestSteps_result (session : SubSession) (rd : HeaderRead) :
    (session.readRequestSteps rd).2 = session.readRequestBody rd := by
  unfold SubSession.readRequestSteps SubSession.readRequestBody
  cases rd.err with
  | some e => rfl
  | none =>
    simp only
    cases (ParseHTTPRequestLine rd.firstLine).err with
    | some e => rfl
    | none =>
      simp only
      by_cases hm : ((ParseHTTPRequestLine rd.firstLine).method != ['G', 'E', 'T']) = true
      · simp only [hm, Bool.false_eq_true, if_false, if_true]
      · simp only [hm, Bool.false_eq_true, if_false]
        cases url.Parse (ParseHTTPRequestLine rd.firstLine).uri with
        | error e => rfl
        | ok urlObj =>
          simp only
          by_cases he : (!HasSuffix urlObj.Path ['.', 'f', 'l', 'v']) = true
          · simp only [he, Bool.false_eq_true, if_false, if_true]
          · simp only [he, Bool.false_eq_true, if_false]
            by_cases hs : ((Split urlObj.Path '/').length != 3) = true
            · simp only [hs, Bool.false_eq_true, if_false, if_true]
            · simp only [hs, Bool.false_eq_true, if_false]
              by_cases hd : (Split ((Split urlObj.Path '/').getD 2 []) '.').length < 2
              · simp only [hd, if_true]
              · simp only [hd, if_false]

/-- The `return` statement that ends the body for a GET request whose target
parses as a URL: the extension is tested first, then the number of segments,
then the number of dot-separated parts. -/
theorem readRequestSteps_get (session : SubSession) (rd : HeaderRead) (u : url.URL)
    (hrd : rd.err = none)
    (hline : (ParseHTTPRequestLine rd.firstLine).err = none)
    (hget : (ParseHTTPRequestLine rd.firstLine).method = ['G', 'E', 'T'])
    (hurl : url.Parse (ParseHTTPRequestLine rd.firstLine).uri = .ok u) :
    (session.readRequestSteps rd).1 =
      if !HasSuffix u.Path ['.', 'f', 'l', 'v'] then ReturnPoint.extension
      else if (Split u.Path '/').length != 3 then ReturnPoint.segmentCount
      else if (Split ((Split u.Path '/').getD 2 []) '.').length < 2 then ReturnPoint.dotParts
      else ReturnPoint.accepted := by
  unfold SubSession.readRequestSteps
  simp only [hrd, hline, hget, hurl, bne_self_eq_false, Bool.false_eq_true, if_false]
  by_cases he : (!HasSuffix u.Path ['.', 'f', 'l', 'v']) = true
  · simp only [he, if_true]
  · simp only [he, Bool.false_eq_true, if_false]
    by_cases hs : ((Split u.Path '/').length != 3) = true
    · simp only [hs, if_true]
    · simp only [hs, Bool.false_eq_true, if_false]
      by_cases hd : (Split ((Split u.Path '/').getD 2 []) '.').length < 2
      · simp only [hd, if_true]
      · simp only [hd, if_false]

/-- C4: for every GET request whose URL path does not end with `.flv`,
`ReadRequest` fails with `ErrHTTPFLV`, and it is the extension check that
rejects it: whatever the number of segments, `ReadRequest` ends at the
`return` of the extension test (line 100), which stands before the test of the
number of segments, and the session is disposed as the request line left it,
before `AppName` is assigned. -/
theorem ReadRequest_rejects_extension (session : SubSession) (now : Int)
    (rd : HeaderRead) (u : url.URL)
    (hrd : rd.err = none)
    (hline : (ParseHTTPRequestLine rd.firstLine).err = none)
    (hget : (ParseHTTPRequestLine rd.firstLine).method = ['G', 'E', 'T'])
    (hurl : url.Parse (ParseHTTPRequestLine rd.firstLine).uri = .ok u)
    (hext : HasSuffix u.Path ['.', 'f', 'l', 'v'] = false) :
    session.ReadRequest now rd =
        (some .ErrHTTPFLV, SubSession.Dispose { session with
          StartTick := now
          Headers := rd.headers
          StreamNameWithRawQuery := (ParseHTTPRequestLine rd.firstLine).uri }) ∧
      (session.ReadRequest now rd).2.AppName = session.AppName ∧
      session.ReadRequestReturn now rd = ReturnPoint.extension ∧
      (SubSession.readRequestSteps { session with StartTick := now } rd).2
        = SubSession.readRequestBody { session with StartTick := now } rd := by
  refine ⟨?_, ?_, ?_, readRequestSteps_result _ rd⟩
  · rw [ReadRequest_get session now rd u hrd hline hget hurl,
      if_neg (fun h => by rw [hext] at h; exact absurd h.1 (by decide))]
  · rw [ReadRequest_get session now rd u hrd hline hget hurl,
      if_neg (fun h => by rw [hext] at h; exact absurd h.1 (by decide))]
    rfl
  · unfold SubSession.ReadRequestReturn
    rw [readRequestSteps_get _ rd u hrd hline hget hurl, hext]
    rfl

/-- C4 witness: `GET /badpath HTTP/1.1`, whose path fails the test of the
number of segments as well, ends at the `return` of the extension test. -/
theorem ReadRequest_rejects_extension_witness :
    ((NewSubSession [] [] [] {}).ReadRequest 0
        { firstLine := "GET /badpath HTTP/1.1".toList }).1 = some .ErrHTTPFLV ∧
      (Split "/badpath".toList '/').length ≠ 3 ∧
      (NewSubSession [] [] [] {}).ReadRequestReturn 0
        { firstLine := "GET /badpath HTTP/1.1".toList } = ReturnPoint.extension :=
  ⟨congrArg Prod.fst
      (ReadRequest_rejects_extension (NewSubSession [] [] [] {}) 0
        { firstLine := "GET /badpath HTTP/1.1".toList } { Path := "/badpath".toList }
        rfl (by decide) (by decide) (by decide) (by decide)).1,
    by decide,
    (ReadRequest_rejects_extension (NewSubSession [] [] [] {}) 0
      { firstLine := "GET /badpath HTTP/1.1".toList } { Path := "/badpath".toList }
      rfl (by decide) (by decide) (by decide) (by decide)).2.2.1⟩

/-- C5: for every request line that the tokenizer splits into a method, a
target and a version, if the method is not exactly `GET` then `ReadRequest`
fails with `ErrHTTPFLV`, whatever the target, and `AppName`, `StreamName` and
`RawQuery` are not assigned. -/
theorem ReadRequest_rejects_method (session : SubSession) (now : Int) (rd : HeaderRead)
    (hrd : rd.err = none)
    (hline : (ParseHTTPRequestLine rd.firstLine).err = none)
    (hmethod : (ParseHTTPRequestLine rd.firstLine).method ≠ ['G', 'E', 'T']) :
    (session.ReadRequest now rd).1 = some .ErrHTTPFLV ∧
      (session.ReadRequest now rd).2.AppName = session.AppName ∧
      (session.ReadRequest now rd).2.StreamName = session.StreamName ∧
      (session.ReadRequest now rd).2.RawQuery = session.RawQuery := by
  rw [ReadRequest_not_get session now rd hrd hline hmethod]
  exact ⟨rfl, rfl, rfl, rfl⟩

/-- C5 witness: the verb `POST` and the case variant `get`, on a fresh session
whose routing fields are unset. -/
theorem ReadRequest_rejects_method_witness :
    (((NewSubSession [] [] [] {}).ReadRequest 0
        { firstLine := "POST /live/test.flv HTTP/1.1".toList }).1 = some .ErrHTTPFLV ∧
      ((NewSubSession [] [] [] {}).ReadRequest 0
        { firstLine := "POST /live/test.flv HTTP/1.1".toList }).2.AppName
          = (NewSubSession [] [] [] {}).AppName ∧
      ((NewSubSession [] [] [] {}).ReadRequest 0
        { firstLine := "POST /live/test.flv HTTP/1.1".toList }).2.StreamName
          = (NewSubSession [] [] [] {}).StreamName ∧
      ((NewSubSession [] [] [] {}).ReadRequest 0
        { firstLine := "POST /live/test.flv HTTP/1.1".toList }).2.RawQuery
          = (NewSubSession [] [] [] {}).RawQuery) ∧
      ((NewSubSession [] [] [] {}).ReadRequest 0
        { firstLine := "get /live/test.flv HTTP/1.1".toList }).1 = some .ErrHTTPFLV :=
  ⟨ReadRequest_rejects_method (NewSubSession [] [] [] {}) 0
      { firstLine := "POST /live/test.flv HTTP/1.1".toList } rfl (by decide) (by decide),
    (ReadRequest_rejects_method (NewSubSession [] [] [] {}) 0
      { firstLine := "get /live/test.flv HTTP/1.1".toList } rfl (by decide) (by decide)).1⟩

/-- C6 (as stated) fails: `GET /app/.flv HTTP/1.1` is accepted with an empty
stream name, and `GET /%2Fname.flv HTTP/1.1`, whose URL path is `//name.flv`,
is accepted with an empty application name. -/
theorem ReadRequest_empty_names_counterexample :
    ((NewSubSession [] [] [] {}).ReadRequest 0
        { firstLine := "GET /app/.flv HTTP/1.1".toList }).1 = none ∧
      ((NewSubSession [] [] [] {}).ReadRequest 0
        { firstLine := "GET /app/.flv HTTP/1.1".toList }).2.StreamName = [] ∧
      url.Parse "/%2Fname.flv".toList = .ok { Path := "//name.flv".toList } ∧
      ((NewSubSession [] [] [] {}).ReadRequest 0
        { firstLine := "GET /%2Fname.flv HTTP/1.1".toList }).1 = none ∧
      ((NewSubSession [] [] [] {}).ReadRequest 0
        { firstLine := "GET /%2Fname.flv HTTP/1.1".toList }).2.AppName = [] := by
  decide

/-- C6 (amended): `ReadRequest` does not reject empty names.  For every GET
request whose URL path is `/app/.flv` it succeeds with an empty `StreamName`,
and for every GET request whose URL path is `//name.flv` it succeeds with an
empty `AppName`.  The target `//name.flv` itself is rejected with `ErrHTTPFLV`,
because `url.Parse` reads `name.flv` as the host and leaves the path empty. -/
theorem ReadRequest_accepts_empty_names (session : SubSession) (now : Int)
    (rd : HeaderRead) (u : url.URL) (name : GoString)
    (hrd : rd.err = none)
    (hline : (ParseHTTPRequestLine rd.firstLine).err = none)
    (hget : (ParseHTTPRequestLine rd.firstLine).method = ['G', 'E', 'T'])
    (hurl : url.Parse (ParseHTTPRequestLine rd.firstLine).uri = .ok u)
    (hname : '/' ∉ name) :
    (u.Path = '/' :: (name ++ ['/', '.', 'f', 'l', 'v']) →
        (session.ReadRequest now rd).1 = none ∧
        (session.ReadRequest now rd).2.AppName = name ∧
        (session.ReadRequest now rd).2.StreamName = []) ∧
      (u.Path = '/' :: '/' :: (name ++ ['.', 'f', 'l', 'v']) → '.' ∉ name →
        (session.ReadRequest now rd).1 = none ∧
        (session.ReadRequest now rd).2.AppName = [] ∧
        (session.ReadRequest now rd).2.StreamName = name) ∧
      ((NewSubSession [] [] [] {}).ReadRequest 0
        { firstLine := "GET //name.flv HTTP/1.1".toList }).1 = some .ErrHTTPFLV := by
  refine ⟨?_, ?_, by decide⟩
  · intro hpath
    have hr := ReadRequest_three_segments session now rd u [] name ['.', 'f', 'l', 'v']
      hrd hline hget hurl hpath (by simp) hname (by decide) ⟨[], rfl⟩
    rw [hr]
    exact ⟨rfl, rfl, rfl⟩
  · intro hpath hdot
    have h2 : '/' ∉ name ++ ['.', 'f', 'l', 'v'] := by
      intro hm
      rcases List.mem_append.mp hm with e | e
      · exact hname e
      · exact absurd e (by decide)
    have hr := ReadRequest_three_segments session now rd u [] [] (name ++ ['.', 'f', 'l', 'v'])
      hrd hline hget hurl hpath (by simp) (by simp) h2 ⟨name, rfl⟩
    have hb : before (name ++ ['.', 'f', 'l', 'v']) '.' = name :=
      before_append name ['f', 'l', 'v'] '.' hdot
    rw [hr, hb]
    exact ⟨rfl, rfl, rfl⟩

/-- C6 witness: the URL path `/app/.flv`. -/
theorem ReadRequest_accepts_empty_names_witness :
    ((NewSubSession [] [] [] {}).ReadRequest 0
        { firstLine := "GET /app/.flv HTTP/1.1".toList }).1 = none ∧
      ((NewSubSession [] [] [] {}).ReadRequest 0
        { firstLine := "GET /app/.flv HTTP/1.1".toList }).2.AppName = "app".toList ∧
      ((NewSubSession [] [] [] {}).ReadRequest 0
        { firstLine := "GET /app/.flv HTTP/1.1".toList }).2.StreamName = [] :=
  (ReadRequest_accepts_empty_names (NewSubSession [] [] [] {}) 0
    { firstLine := "GET /app/.flv HTTP/1.1".toList } { Path := "/app/.flv".toList }
    "app".toList rfl (by decide) (by decide) (by decide) (by decide)).1 (by decide)

/-- C7 (as stated) fails: `GET x/app/name.flv HTTP/1.1` is accepted although
its URL path does not begin with `/`; its first segment is `x`. -/
theorem ReadRequest_first_segment_counterexample :
    url.Parse "x/app/name.flv".toList = .ok { Path := "x/app/name.flv".toList } ∧
      Split "x/app/name.flv".toList '/' = ["x".toList, "app".toList, "name.flv".toList] ∧
      HasPrefix "x/app/name.flv".toList ['/'] = false ∧
      ((NewSubSession [] [] [] {}).ReadRequest 0
        { firstLine := "GET x/app/name.flv HTTP/1.1".toList }).1 = none ∧
      ((NewSubSession [] [] [] {}).ReadRequest 0
        { firstLine := "GET x/app/name.flv HTTP/1.1".toList }).2.AppName = "app".toList ∧
      ((NewSubSession [] [] [] {}).ReadRequest 0
        { firstLine := "GET x/app/name.flv HTTP/1.1".toList }).2.StreamName
          = "name".toList := by
  decide

/-- C7 (amended): for every request that `ReadRequest` accepts, the URL path
splits on `/` into exactly three segments, of which the second is `AppName`
and the third gives `StreamName`; the first segment is not checked: a URL path
`first/app/seg` whose last segment ends in `.flv` is accepted whatever
`first` is. -/
theorem ReadRequest_accepted_segments (session : SubSession) (now : Int) (rd : HeaderRead) :
    ((session.ReadRequest now rd).1 = none →
        ∃ u first app seg, url.Parse (ParseHTTPRequestLine rd.firstLine).uri = .ok u ∧
          Split u.Path '/' = [first, app, seg] ∧
          (session.ReadRequest now rd).2.AppName = app ∧
          (session.ReadRequest now rd).2.StreamName = before seg '.') ∧
      (∀ (u : url.URL) (first app seg : GoString), rd.err = none →
        (ParseHTTPRequestLine rd.firstLine).err = none →
        (ParseHTTPRequestLine rd.firstLine).method = ['G', 'E', 'T'] →
        url.Parse (ParseHTTPRequestLine rd.firstLine).uri = .ok u →
        u.Path = first ++ '/' :: (app ++ '/' :: seg) →
        '/' ∉ first → '/' ∉ app → '/' ∉ seg → ['.', 'f', 'l', 'v'] <:+ seg →
        (session.ReadRequest now rd).1 = none ∧
          (session.ReadRequest now rd).2.AppName = app) := by
  constructor
  · intro h
    obtain ⟨hrd, hline, hget, u, hurl, hc⟩ := ReadRequest_nil_inv session now rd h
    have hl := hc.2
    obtain ⟨first, app, seg, hsp⟩ : ∃ first app seg, Split u.Path '/' = [first, app, seg] := by
      generalize Split u.Path '/' = l at hl
      match l, hl with
      | [a, b, c], _ => exact ⟨a, b, c, rfl⟩
    refine ⟨u, first, app, seg, hurl, hsp, ?_⟩
    rw [ReadRequest_get session now rd u hrd hline hget hurl, if_pos hc, hsp]
    exact ⟨rfl, rfl⟩
  · intro u first app seg hrd hline hget hurl hpath h0 h1 h2 hsuf
    rw [ReadRequest_three_segments session now rd u first app seg hrd hline hget hurl hpath
      h0 h1 h2 hsuf]
    exact ⟨rfl, rfl⟩

/-- C7 witness: the accepted request `GET /live/test123.flv HTTP/1.1` has a URL
path of three segments. -/
theorem ReadRequest_accepted_segments_witness :
    ∃ u first app seg,
      url.Parse (ParseHTTPRequestLine "GET /live/test123.flv HTTP/1.1".toList).uri = .ok u ∧
        Split u.Path '/' = [first, app, seg] ∧
        ((NewSubSession [] [] [] {}).ReadRequest 3
          { firstLine := "GET /live/test123.flv HTTP/1.1".toList }).2.AppName = app ∧
        ((NewSubSession [] [] [] {}).ReadRequest 3
          { firstLine := "GET /live/test123.flv HTTP/1.1".toList }).2.StreamName
            = before seg '.' :=
  (ReadRequest_accepted_segments (NewSubSession [] [] [] {}) 3
    { firstLine := "GET /live/test123.flv HTTP/1.1".toList }).1 (by decide)

/-- C8 (as stated) fails: the segment `name.flv.bak` has three dot-separated
parts, yet `GET /app/name.flv.bak HTTP/1.1` is rejected with `ErrHTTPFLV`,
because its URL path does not end in `.flv`. -/
theorem ReadRequest_suffix_after_flv_counterexample :
    url.Parse "/app/name.flv.bak".toList = .ok { Path := "/app/name.flv.bak".toList } ∧
      2 ≤ (Split "name.flv.bak".toList '.').length ∧
      ((NewSubSession [] [] [] {}).ReadRequest 0
        { firstLine := "GET /app/name.flv.bak HTTP/1.1".toList }).1 = some .ErrHTTPFLV ∧
      ((NewSubSession [] [] [] {}).ReadRequest 0
        { firstLine := "GET /app/name.flv.bak HTTP/1.1".toList }).2.StreamName = [] := by
  decide

/-- C8 (amended): for every GET request whose URL path is `/app/seg`, when
`seg` ends in `.flv` (so that it has at least two dot-separated parts)
`ReadRequest` resolves `AppName` to `app` and `StreamName` to the first
dot-separated part of `seg`, whatever stands between that part and the final
`.flv`; when `seg` does not end in `.flv`, as in `/app/name.flv.bak`, the
request is rejected with `ErrHTTPFLV`. -/
theorem ReadRequest_stream_name_first_part (session : SubSession) (now : Int)
    (rd : HeaderRead) (u : url.URL) (app seg : GoString)
    (hrd : rd.err = none)
    (hline : (ParseHTTPRequestLine rd.firstLine).err = none)
    (hget : (ParseHTTPRequestLine rd.firstLine).method = ['G', 'E', 'T'])
    (hurl : url.Parse (ParseHTTPRequestLine rd.firstLine).uri = .ok u)
    (hpath : u.Path = '/' :: (app ++ '/' :: seg))
    (happ : '/' ∉ app) (hseg : '/' ∉ seg) :
    (['.', 'f', 'l', 'v'] <:+ seg →
        (session.ReadRequest now rd).1 = none ∧
        (session.ReadRequest now rd).2.AppName = app ∧
        (session.ReadRequest now rd).2.StreamName = (Split seg '.').getD 0 [] ∧
        2 ≤ (Split seg '.').length) ∧
      (¬ ['.', 'f', 'l', 'v'] <:+ seg →
        (session.ReadRequest now rd).1 = some .ErrHTTPFLV) := by
  have hsp : Split u.Path '/' = [[], app, seg] := by
    rw [hpath]
    exact Split_three [] app seg (by simp) happ hseg
  constructor
  · intro hsuf
    rw [ReadRequest_three_segments session now rd u [] app seg hrd hline hget hurl hpath
      (by simp) happ hseg hsuf, Split_head]
    refine ⟨rfl, rfl, rfl, ?_⟩
    rw [Split_length]
    have hmem : '.' ∈ seg := hsuf.subset (by simp)
    have := List.count_pos_iff.mpr hmem
    omega
  · intro hsuf
    have hns : ¬ (HasSuffix u.Path ['.', 'f', 'l', 'v'] = true) := by
      intro hs
      have hs2 : ['.', 'f', 'l', 'v'] <:+ u.Path := by simpa [HasSuffix] using hs
      obtain ⟨init, last, hil, hl⟩ :=
        Split_last_suffix ['.', 'f', 'l', 'v'] '/' (by simp) (by decide) u.Path hs2
      rw [hsp] at hil
      have : last = seg := by
        have h1 := congrArg List.getLast? hil
        simpa using h1.symm
      exact hsuf (this ▸ hl)
    rw [ReadRequest_get session now rd u hrd hline hget hurl, if_neg (fun h => hns h.1)]

/-- C8 witness: `/app/name.bak.flv` resolves to the stream name `name`. -/
theorem ReadRequest_stream_name_first_part_witness :
    ((NewSubSession [] [] [] {}).ReadRequest 0
        { firstLine := "GET /app/name.bak.flv HTTP/1.1".toList }).1 = none ∧
      ((NewSubSession [] [] [] {}).ReadRequest 0
        { firstLine := "GET /app/name.bak.flv HTTP/1.1".toList }).2.AppName = "app".toList ∧
      ((NewSubSession [] [] [] {}).ReadRequest 0
        { firstLine := "GET /app/name.bak.flv HTTP/1.1".toList }).2.StreamName
          = (Split "name.bak.flv".toList '.').getD 0 [] ∧
      2 ≤ (Split "name.bak.flv".toList '.').length :=
  (ReadRequest_stream_name_first_part (NewSubSession [] [] [] {}) 0
    { firstLine := "GET /app/name.bak.flv HTTP/1.1".toList }
    { Path := "/app/name.bak.flv".toList } "app".toList "name.bak.flv".toList
    rfl (by decide) (by decide) (by decide) (by decide) (by decide) (by decide)).1
    (by decide)

/-- C9 (as stated) fails: for the malformed URL of `GET /a%zz/name.flv
HTTP/1.1` the returned error is the `*url.Error` of `url.Parse`, not
`ErrHTTPFLV`. -/
theorem ReadRequest_malformed_url_counterexample :
    ((NewSubSession [] [] [] {}).ReadRequest 0
        { firstLine := "GET /a%zz/name.flv HTTP/1.1".toList }).1
      = some (.urlError "/a%zz/name.flv".toList (.escapeError "%zz".toList)) ∧
      ((NewSubSession [] [] [] {}).ReadRequest 0
        { firstLine := "GET /a%zz/name.flv HTTP/1.1".toList }).1 ≠ some .ErrHTTPFLV := by
  decide

/-- C9 (amended): once the request line is tokenized, a wrong method returns
`ErrHTTPFLV`, and so does every failure after the URL has been parsed (wrong
file extension, wrong segment count, malformed stream-name segment); a
malformed URL returns the error of `url.Parse` itself, which is never
`ErrHTTPFLV`. -/
theorem ReadRequest_error_kinds (session : SubSession) (now : Int) (rd : HeaderRead)
    (hrd : rd.err = none)
    (hline : (ParseHTTPRequestLine rd.firstLine).err = none) :
    ((ParseHTTPRequestLine rd.firstLine).method ≠ ['G', 'E', 'T'] →
        (session.ReadRequest now rd).1 = some .ErrHTTPFLV) ∧
      ((ParseHTTPRequestLine rd.firstLine).method = ['G', 'E', 'T'] →
        ∀ u, url.Parse (ParseHTTPRequestLine rd.firstLine).uri = .ok u →
          (session.ReadRequest now rd).1 = none ∨
            (session.ReadRequest now rd).1 = some .ErrHTTPFLV) ∧
      ((ParseHTTPRequestLine rd.firstLine).method = ['G', 'E', 'T'] →
        ∀ e, url.Parse (ParseHTTPRequestLine rd.firstLine).uri = .error e →
          (session.ReadRequest now rd).1 = some e ∧ e ≠ .ErrHTTPFLV) := by
  refine ⟨?_, ?_, ?_⟩
  · intro hm
    rw [ReadRequest_not_get session now rd hrd hline hm]
  · intro hget u hurl
    rw [ReadRequest_get session now rd u hrd hline hget hurl]
    by_cases hc : HasSuffix u.Path ['.', 'f', 'l', 'v'] = true ∧ (Split u.Path '/').length = 3
    · rw [if_pos hc]; exact Or.inl rfl
    · rw [if_neg hc]; exact Or.inr rfl
  · intro hget e hurl
    rw [ReadRequest_url_err session now rd e hrd hline hget hurl]
    exact ⟨rfl, Parse_error_ne _ e hurl⟩

/-- C9 witness: a wrong method and a wrong extension both give `ErrHTTPFLV`. -/
theorem ReadRequest_error_kinds_witness :
    ((NewSubSession [] [] [] {}).ReadRequest 0
        { firstLine := "PUT /live/a.flv HTTP/1.1".toList }).1 = some .ErrHTTPFLV ∧
      (((NewSubSession [] [] [] {}).ReadRequest 0
          { firstLine := "GET /live/a.mp4 HTTP/1.1".toList }).1 = none ∨
        ((NewSubSession [] [] [] {}).ReadRequest 0
          { firstLine := "GET /live/a.mp4 HTTP/1.1".toList }).1 = some .ErrHTTPFLV) :=
  ⟨(ReadRequest_error_kinds (NewSubSession [] [] [] {}) 0
      { firstLine := "PUT /live/a.flv HTTP/1.1".toList } rfl (by decide)).1 (by decide),
    (ReadRequest_error_kinds (NewSubSession [] [] [] {}) 0
      { firstLine := "GET /live/a.mp4 HTTP/1.1".toList } rfl (by decide)).2.1 (by decide)
      { Path := "/live/a.mp4".toList } (by decide)⟩

/-- C10 (as stated) fails: after the failed `POST /live/test.flv HTTP/1.1` on a
fresh session, `StreamNameWithRawQuery` has been assigned the target while
`AppName`, `StreamName` and `RawQuery` are still unset. -/
theorem ReadRequest_atomic_counterexample :
    ((NewSubSession [] [] [] {}).ReadRequest 0
        { firstLine := "POST /live/test.flv HTTP/1.1".toList }).1 = some .ErrHTTPFLV ∧
      ((NewSubSession [] [] [] {}).ReadRequest 0
        { firstLine := "POST /live/test.flv HTTP/1.1".toList }).2.StreamNameWithRawQuery
          = "/live/test.flv".toList ∧
      "/live/test.flv".toList ≠ (NewSubSession [] [] [] {}).StreamNameWithRawQuery ∧
      ((NewSubSession [] [] [] {}).ReadRequest 0
        { firstLine := "POST /live/test.flv HTTP/1.1".toList }).2.AppName = [] ∧
      ((NewSubSession [] [] [] {}).ReadRequest 0
        { firstLine := "POST /live/test.flv HTTP/1.1".toList }).2.StreamName = [] ∧
      ((NewSubSession [] [] [] {}).ReadRequest 0
        { firstLine := "POST /live/test.flv HTTP/1.1".toList }).2.RawQuery = [] := by
  decide

/-- C10 (amended): starting from a freshly constructed session, after a failed
`ReadRequest` the fields `AppName`, `StreamName` and `RawQuery` are still
unset, whereas `StreamNameWithRawQuery` holds the target that the tokenizer
returned as soon as the header block was read; after a successful
`ReadRequest`, `StreamNameWithRawQuery` is the target and the other three are
the ones read off its URL. -/
theorem ReadRequest_fresh_identity (protocol uk startTime : GoString) (conn : Connection)
    (now : Int) (rd : HeaderRead) :
    (((NewSubSession protocol uk startTime conn).ReadRequest now rd).1 ≠ none →
        ((NewSubSession protocol uk startTime conn).ReadRequest now rd).2.AppName = [] ∧
        ((NewSubSession protocol uk startTime conn).ReadRequest now rd).2.StreamName = [] ∧
        ((NewSubSession protocol uk startTime conn).ReadRequest now rd).2.RawQuery = [] ∧
        (rd.err = none →
          ((NewSubSession protocol uk startTime conn).ReadRequest now rd).2.StreamNameWithRawQuery
            = (ParseHTTPRequestLine rd.firstLine).uri)) ∧
      (((NewSubSession protocol uk startTime conn).ReadRequest now rd).1 = none →
        ((NewSubSession protocol uk startTime conn).ReadRequest now rd).2.StreamNameWithRawQuery
            = (ParseHTTPRequestLine rd.firstLine).uri ∧
          ∃ u, url.Parse (ParseHTTPRequestLine rd.firstLine).uri = .ok u ∧
            ((NewSubSession protocol uk startTime conn).ReadRequest now rd).2.AppName
              = (Split u.Path '/').getD 1 [] ∧
            ((NewSubSession protocol uk startTime conn).ReadRequest now rd).2.StreamName
              = before ((Split u.Path '/').getD 2 []) '.' ∧
            ((NewSubSession protocol uk startTime conn).ReadRequest now rd).2.RawQuery = u.RawQuery) := by
  constructor
  · intro h
    cases hrd : rd.err with
    | some e =>
      rw [ReadRequest_read_err _ _ _ e hrd]
      exact ⟨rfl, rfl, rfl, fun h => by cases h⟩
    | none =>
      cases hline : (ParseHTTPRequestLine rd.firstLine).err with
      | some e =>
        rw [ReadRequest_line_err _ _ _ e hrd hline]
        exact ⟨rfl, rfl, rfl, fun _ => rfl⟩
      | none =>
        by_cases hget : (ParseHTTPRequestLine rd.firstLine).method = ['G', 'E', 'T']
        · cases hurl : url.Parse (ParseHTTPRequestLine rd.firstLine).uri with
          | error e =>
            rw [ReadRequest_url_err _ _ _ e hrd hline hget hurl]
            exact ⟨rfl, rfl, rfl, fun _ => rfl⟩
          | ok u =>
            rw [ReadRequest_get _ _ _ u hrd hline hget hurl] at h ⊢
            by_cases hc : HasSuffix u.Path ['.', 'f', 'l', 'v'] = true
                ∧ (Split u.Path '/').length = 3
            · rw [if_pos hc] at h; exact absurd rfl h
            · rw [if_neg hc]
              exact ⟨rfl, rfl, rfl, fun _ => rfl⟩
        · rw [ReadRequest_not_get _ _ _ hrd hline hget]
          exact ⟨rfl, rfl, rfl, fun _ => rfl⟩
  · intro h
    obtain ⟨hrd, hline, hget, u, hurl, hc⟩ := ReadRequest_nil_inv _ now rd h
    rw [ReadRequest_get _ now rd u hrd hline hget hurl, if_pos hc]
    exact ⟨rfl, u, hurl, rfl, rfl, rfl⟩

/-- C10 witness: a request with a wrong extension on a fresh session. -/
theorem ReadRequest_fresh_identity_witness :
    ((NewSubSession [] "k1".toList [] {}).ReadRequest 9
        { firstLine := "GET /live/a.mp4 HTTP/1.1".toList }).2.AppName = [] ∧
      ((NewSubSession [] "k1".toList [] {}).ReadRequest 9
        { firstLine := "GET /live/a.mp4 HTTP/1.1".toList }).2.StreamName = [] ∧
      ((NewSubSession [] "k1".toList [] {}).ReadRequest 9
        { firstLine := "GET /live/a.mp4 HTTP/1.1".toList }).2.RawQuery = [] ∧
      ((none : Option GoError) = none →
        ((NewSubSession [] "k1".toList [] {}).ReadRequest 9
          { firstLine := "GET /live/a.mp4 HTTP/1.1".toList }).2.StreamNameWithRawQuery
            = (ParseHTTPRequestLine "GET /live/a.mp4 HTTP/1.1".toList).uri) :=
  (ReadRequest_fresh_identity [] "k1".toList [] {} 9
    { firstLine := "GET /live/a.mp4 HTTP/1.1".toList }).1 (by decide)

/-! ## Disposal, writing, statistics and liveness -/

theorem Close_closed (c : Connection) : c.Close.closed = true := by
  unfold Connection.Close
  by_cases h : c.closed = true
  · simp [h]
  · simp [h]

theorem Close_wrote (c : Connection) : c.Close.wrote = c.wrote := by
  unfold Connection.Close
  by_cases h : c.closed = true
  · simp [h]
  · simp [h]

theorem Close_Close (c : Connection) : c.Close.Close = c.Close := by
  have h := Close_closed c
  generalize c.Close = d at h
  unfold Connection.Close
  simp [h]

/-- The transport after `ReadRequest`: untouched on success, closed on failure. -/
theorem ReadRequest_conn (session : SubSession) (now : Int) (rd : HeaderRead) :
    (session.ReadRequest now rd).2.conn =
      if (session.ReadRequest now rd).1 = none then session.conn else session.conn.Close := by
  cases hrd : rd.err with
  | some e => rw [ReadRequest_read_err _ _ _ e hrd]; rfl
  | none =>
    cases hline : (ParseHTTPRequestLine rd.firstLine).err with
    | some e => rw [ReadRequest_line_err _ _ _ e hrd hline]; rfl
    | none =>
      by_cases hget : (ParseHTTPRequestLine rd.firstLine).method = ['G', 'E', 'T']
      · cases hurl : url.Parse (ParseHTTPRequestLine rd.firstLine).uri with
        | error e => rw [ReadRequest_url_err _ _ _ e hrd hline hget hurl]; rfl
        | ok u =>
          rw [ReadRequest_get _ _ _ u hrd hline hget hurl]
          by_cases hc : HasSuffix u.Path ['.', 'f', 'l', 'v'] = true
              ∧ (Split u.Path '/').length = 3
          · rw [if_pos hc]; rfl
          · rw [if_neg hc]; rfl
      · rw [ReadRequest_not_get _ _ _ hrd hline hget]; rfl

/-- A failed `ReadRequest` has not assigned `AppName`. -/
theorem ReadRequest_failure_AppName (session : SubSession) (now : Int) (rd : HeaderRead)
    (h : (session.ReadRequest now rd).1 ≠ none) :
    (session.ReadRequest now rd).2.AppName = session.AppName := by
  cases hrd : rd.err with
  | some e => rw [ReadRequest_read_err _ _ _ e hrd]; rfl
  | none =>
    cases hline : (ParseHTTPRequestLine rd.firstLine).err with
    | some e => rw [ReadRequest_line_err _ _ _ e hrd hline]; rfl
    | none =>
      by_cases hget : (ParseHTTPRequestLine rd.firstLine).method = ['G', 'E', 'T']
      · cases hurl : url.Parse (ParseHTTPRequestLine rd.firstLine).uri with
        | error e => rw [ReadRequest_url_err _ _ _ e hrd hline hget hurl]; rfl
        | ok u =>
          rw [ReadRequest_get _ _ _ u hrd hline hget hurl] at h ⊢
          by_cases hc : HasSuffix u.Path ['.', 'f', 'l', 'v'] = true
              ∧ (Split u.Path '/').length = 3
          · rw [if_pos hc] at h; exact absurd rfl h
          · rw [if_neg hc]; rfl
      · rw [ReadRequest_not_get _ _ _ hrd hline hget]; rfl

/-- The third of three segments of a path that ends in `.flv` ends in `.flv`. -/
theorem third_segment_suffix (p : GoString)
    (hsuf : HasSuffix p ['.', 'f', 'l', 'v'] = true)
    (hlen : (Split p '/').length = 3) :
    HasSuffix ((Split p '/').getD 2 []) ['.', 'f', 'l', 'v'] = true := by
  have hs : ['.', 'f', 'l', 'v'] <:+ p := by
    simpa [HasSuffix] using hsuf
  obtain ⟨init, last, hsp, hl⟩ :=
    Split_last_suffix ['.', 'f', 'l', 'v'] '/' (by simp) (by decide) p hs
  rw [hsp] at hlen ⊢
  have hi : init.length = 2 := by simpa using hlen
  have hget : (init ++ [last]).getD 2 [] = last := by
    match init, hi with
    | [a, b], _ => rfl
  rw [hget]
  simpa [HasSuffix] using hl

theorem sub64_eq_zero (a b : Nat) (ha : a < 2 ^ 64) (hb : b < 2 ^ 64) :
    sub64 a b = 0 ↔ a = b := by
  unfold sub64
  omega

theorem sub64_of_le (a b : Nat) (ha : a < 2 ^ 64) (hle : b ≤ a) : sub64 a b = a - b := by
  unfold sub64
  omega

theorem bitrate_lt (d interval : Nat) : mul64 d 8 / 1024 / interval < 2 ^ 54 := by
  unfold mul64
  have h1 : d * 8 % 2 ^ 64 < 2 ^ 64 := Nat.mod_lt _ (by norm_num)
  have h2 : d * 8 % 2 ^ 64 / 1024 < 2 ^ 54 := by omega
  exact lt_of_le_of_lt (Nat.div_le_self _ _) h2

theorem toInt_small (x : Nat) (h : x < 2 ^ 63) : toInt x = (x : Int) := by
  unfold toInt
  have hm : x % 2 ^ 64 = x := Nat.mod_eq_of_lt (by omega)
  rw [hm, if_pos h]

/-- C11: `ReadRequest` disposes the session exactly when it fails.  When it
returns an error the transport has been closed, whatever the cause; when it
returns `nil` the transport is as it was; and in neither case has a byte been
handed to the transport for writing. -/
theorem ReadRequest_disposes_on_failure (session : SubSession) (now : Int)
    (rd : HeaderRead) :
    ((session.ReadRequest now rd).1 ≠ none →
        (session.ReadRequest now rd).2.conn = session.conn.Close ∧
        (session.ReadRequest now rd).2.conn.closed = true) ∧
      ((session.ReadRequest now rd).1 = none →
        (session.ReadRequest now rd).2.conn = session.conn) ∧
      (session.ReadRequest now rd).2.conn.wrote = session.conn.wrote := by
  have hc := ReadRequest_conn session now rd
  refine ⟨?_, ?_, ?_⟩
  · intro h
    rw [if_neg h] at hc
    rw [hc]
    exact ⟨rfl, Close_closed _⟩
  · intro h
    rw [if_pos h] at hc
    exact hc
  · by_cases h : (session.ReadRequest now rd).1 = none
    · rw [if_pos h] at hc; rw [hc]
    · rw [if_neg h] at hc; rw [hc, Close_wrote]

/-- C11 witness: a failed header read, a rejected method and an accepted
request on an open transport. -/
theorem ReadRequest_disposes_on_failure_witness :
    ((NewSubSession [] [] [] {}).ReadRequest 0 { err := some (.transport 1) }).2.conn.closed
        = true ∧
      ((NewSubSession [] [] [] {}).ReadRequest 0
        { firstLine := "POST /live/test.flv HTTP/1.1".toList }).2.conn.closed = true ∧
      ((NewSubSession [] [] [] {}).ReadRequest 0
        { firstLine := "GET /live/test.flv HTTP/1.1".toList }).2.conn
          = (NewSubSession [] [] [] {}).conn :=
  ⟨((ReadRequest_disposes_on_failure (NewSubSession [] [] [] {}) 0
      { err := some (.transport 1) }).1 (by decide)).2,
    ((ReadRequest_disposes_on_failure (NewSubSession [] [] [] {}) 0
      { firstLine := "POST /live/test.flv HTTP/1.1".toList }).1 (by decide)).2,
    (ReadRequest_disposes_on_failure (NewSubSession [] [] [] {}) 0
      { firstLine := "GET /live/test.flv HTTP/1.1".toList }).2.1 (by decide)⟩

/-- C12: on the first `IsAlive` call of a session, whose stale baseline is
unset, `IsAlive` returns `true` for every value of the counters and every
interval, and records the current counters of the transport as the stale
baseline. -/
theorem IsAlive_first_call (session : SubSession) (interval : Nat)
    (h : session.staleStat = none) :
    session.IsAlive interval =
      (true, { session with staleStat := some session.conn.GetStat }) := by
  unfold SubSession.IsAlive
  simp only [h]

/-- C12 witness: a fresh session whose transport has written nothing. -/
theorem IsAlive_first_call_witness :
    (NewSubSession [] [] [] {}).IsAlive 0 =
      (true, { NewSubSession [] [] [] {} with
        staleStat := some (NewSubSession [] [] [] {}).conn.GetStat }) :=
  IsAlive_first_call (NewSubSession [] [] [] {}) 0 rfl

/-- C13: on every `IsAlive` call after the first, `IsAlive` returns `false` if
and only if the cumulative write counter equals the one recorded at the
previous call, returns `true` for any positive delta, and then sets the stale
baseline to the current counters; the result and the new state are the same
for every value of the interval. -/
theorem IsAlive_later_call (session : SubSession) (stale : Stat) (interval : Nat)
    (h : session.staleStat = some stale)
    (hc : session.conn.GetStat.WroteBytesSum < 2 ^ 64)
    (hs : stale.WroteBytesSum < 2 ^ 64) :
    ((session.IsAlive interval).1 = false ↔
        session.conn.GetStat.WroteBytesSum = stale.WroteBytesSum) ∧
      (stale.WroteBytesSum < session.conn.GetStat.WroteBytesSum →
        (session.IsAlive interval).1 = true) ∧
      (session.IsAlive interval).2 = { session with staleStat := some session.conn.GetStat } ∧
      ∀ interval2, session.IsAlive interval2 = session.IsAlive interval := by
  have hz := sub64_eq_zero _ _ hc hs
  have hv : session.IsAlive interval =
      (!(sub64 session.conn.GetStat.WroteBytesSum stale.WroteBytesSum == 0),
        { session with staleStat := some session.conn.GetStat }) := by
    unfold SubSession.IsAlive
    simp only [h]
  refine ⟨?_, ?_, ?_, ?_⟩
  · rw [hv]
    simp [hz]
  · intro hlt
    rw [hv]
    have : ¬ session.conn.GetStat.WroteBytesSum = stale.WroteBytesSum := by omega
    simp [hz, this]
  · rw [hv]
  · intro interval2
    unfold SubSession.IsAlive
    simp only [h]

/-- C13 witness: a delta of one byte is alive, no delta is not. -/
theorem IsAlive_later_call_witness :
    (SubSession.IsAlive
        { conn := { stat := { WroteBytesSum := 8 } }, staleStat := some { WroteBytesSum := 7 } }
        5).1 = true ∧
      ((SubSession.IsAlive
        { conn := { stat := { WroteBytesSum := 7 } }, staleStat := some { WroteBytesSum := 7 } }
        5).1 = false ↔ (7 : Nat) = 7) :=
  ⟨(IsAlive_later_call
      { conn := { stat := { WroteBytesSum := 8 } }, staleStat := some { WroteBytesSum := 7 } }
      { WroteBytesSum := 7 } 5 rfl (by decide) (by decide)).2.1 (by decide),
    (IsAlive_later_call
      { conn := { stat := { WroteBytesSum := 7 } }, staleStat := some { WroteBytesSum := 7 } }
      { WroteBytesSum := 7 } 5 rfl (by decide) (by decide)).1⟩

/-- C14: for every interval above zero and every previous and current
cumulative write counters `prev <= curr` with `curr - prev < 2^61`,
`UpdateStat(interval)` stores `Bitrate = (curr - prev) * 8 / 1024 / interval`
in integer arithmetic and advances the previous-interval baseline to the
current counters of the transport. -/
theorem UpdateStat_bitrate (session : SubSession) (interval : Nat)
    (hi : 0 < interval)
    (hle : session.prevConnStat.WroteBytesSum ≤ session.conn.GetStat.WroteBytesSum)
    (hd : session.conn.GetStat.WroteBytesSum - session.prevConnStat.WroteBytesSum < 2 ^ 61)
    (hc : session.conn.GetStat.WroteBytesSum < 2 ^ 64) :
    ∃ s, session.UpdateStat interval = some s ∧
      s.stat.Bitrate =
        (((session.conn.GetStat.WroteBytesSum - session.prevConnStat.WroteBytesSum)
          * 8 / 1024 / interval : Nat) : Int) ∧
      s.prevConnStat = session.conn.GetStat := by
  have hne : ¬ interval = 0 := by omega
  have hsub := sub64_of_le _ _ hc hle
  have hmul : mul64 (session.conn.GetStat.WroteBytesSum - session.prevConnStat.WroteBytesSum) 8
      = (session.conn.GetStat.WroteBytesSum - session.prevConnStat.WroteBytesSum) * 8 := by
    unfold mul64
    exact Nat.mod_eq_of_lt (by omega)
  have hlt := bitrate_lt
    (session.conn.GetStat.WroteBytesSum - session.prevConnStat.WroteBytesSum) interval
  rw [hmul] at hlt
  refine ⟨_, by unfold SubSession.UpdateStat; simp only [hne, if_false]; rfl, ?_, rfl⟩
  show toInt _ = _
  rw [hsub, hmul, toInt_small _ (by omega)]

/-- C14 witness: an interval of 10 and a delta of 10,240 bytes give the bitrate
8. -/
theorem UpdateStat_bitrate_witness :
    ∃ s, ({ conn := { stat := { WroteBytesSum := 10240 } } } : SubSession).UpdateStat 10
        = some s ∧
      s.stat.Bitrate = (((10240 - 0) * 8 / 1024 / 10 : Nat) : Int) ∧
      s.prevConnStat = { WroteBytesSum := 10240 } :=
  UpdateStat_bitrate { conn := { stat := { WroteBytesSum := 10240 } } } 10
    (by decide) (by decide) (by decide) (by decide)

/-- C15 (as stated) fails: on a fresh session whose transport has written five
bytes, the session after `GetStat` differs from the session before it, because
`GetStat` stores the counters in the statistics record of the session. -/
theorem GetStat_read_only_counterexample :
    (SubSession.GetStat (NewSubSession [] [] [] { stat := { WroteBytesSum := 5 } })).2
        ≠ NewSubSession [] [] [] { stat := { WroteBytesSum := 5 } } ∧
      (SubSession.GetStat
        (NewSubSession [] [] [] { stat := { WroteBytesSum := 5 } })).2.stat.WroteBytesSum = 5 ∧
      (NewSubSession [] [] [] { stat := { WroteBytesSum := 5 } }).stat.WroteBytesSum = 0 := by
  decide

/-- C15 (amended): `GetStat` returns the statistics record whose `ReadBytesSum`
and `WroteBytesSum` are the current counters of the transport and whose other
fields, `Bitrate` included, are as last stored.  It stores that record in the
session and changes nothing else, so the session after `GetStat` equals the
session before it exactly when the stored sums already were the current
counters. -/
theorem GetStat_record (session : SubSession) :
    session.GetStat.1 =
        { session.stat with
          ReadBytesSum := session.conn.GetStat.ReadBytesSum
          WroteBytesSum := session.conn.GetStat.WroteBytesSum } ∧
      session.GetStat.2 = { session with stat := session.GetStat.1 } ∧
      (session.GetStat.2 = session ↔
        session.stat.ReadBytesSum = session.conn.GetStat.ReadBytesSum ∧
          session.stat.WroteBytesSum = session.conn.GetStat.WroteBytesSum) := by
  refine ⟨rfl, rfl, ?_⟩
  constructor
  · intro h
    have hs := congrArg SubSession.stat h
    have h1 := congrArg StatSub.ReadBytesSum hs
    have h2 := congrArg StatSub.WroteBytesSum hs
    exact ⟨h1.symm, h2.symm⟩
  · intro h
    obtain ⟨h1, h2⟩ := h
    unfold SubSession.GetStat
    simp only [← h1, ← h2]

/-- C16: `Dispose` is idempotent: for every session, calling it twice leaves
the session and its transport in the state that one call leaves them in, with
the transport closed; the socket of a session that was open is closed once. -/
theorem Dispose_idempotent (session : SubSession) :
    session.Dispose.Dispose = session.Dispose ∧
      session.Dispose.conn.closed = true ∧
      session.Dispose.Dispose.conn.sockCloses = session.Dispose.conn.sockCloses ∧
      (session.conn.closed = false →
        session.Dispose.Dispose.conn.sockCloses = session.conn.sockCloses + 1) := by
  have hd : session.Dispose.Dispose = session.Dispose := by
    unfold SubSession.Dispose
    simp only [Close_Close]
  refine ⟨hd, Close_closed _, by rw [hd], ?_⟩
  intro h
  rw [hd]
  unfold SubSession.Dispose Connection.Close
  simp [h]

/-- C16 witness: a fresh session on an open transport. -/
theorem Dispose_idempotent_witness :
    (NewSubSession [] [] [] {}).Dispose.Dispose.conn.sockCloses
      = (NewSubSession [] [] [] {}).conn.sockCloses + 1 :=
  (Dispose_idempotent (NewSubSession [] [] [] {})).2.2.2 rfl

/-- C17: the write operations are best-effort.  For every session, every
packet and every outcome `err` of the transport write, `WriteHTTPResponseHeader`,
`WriteFLVHeader`, `WriteTag` and `WriteRawPacket` each hand exactly their bytes
to one write of the transport, and whether that write succeeds or fails they
do not close the transport, return no error, and leave every other field of
the session as it was. -/
theorem Write_best_effort (session : SubSession) (server FLVHeader pkt : GoString)
    (tag : Tag) (err : Option GoError) :
    session.WriteHTTPResponseHeader server err =
        { session with conn := { session.conn with
          wrote := session.conn.wrote ++ [flvHTTPResponseHeader server] } } ∧
      session.WriteFLVHeader FLVHeader err =
        { session with conn := { session.conn with
          wrote := session.conn.wrote ++ [FLVHeader] } } ∧
      session.WriteTag tag err =
        { session with conn := { session.conn with
          wrote := session.conn.wrote ++ [tag.Raw] } } ∧
      session.WriteRawPacket pkt err =
        { session with conn := { session.conn with
          wrote := session.conn.wrote ++ [pkt] } } ∧
      (session.WriteRawPacket pkt err).conn.closed = session.conn.closed ∧
      (session.WriteRawPacket pkt err).conn.sockCloses = session.conn.sockCloses ∧
      session.WriteRawPacket pkt err = session.WriteRawPacket pkt none :=
  ⟨rfl, rfl, rfl, rfl, rfl, rfl, rfl⟩

/-- C18: the branch of `ReadRequest` for fewer than two dot-separated parts is
unreachable.  For every URL path that ends with `.flv` and splits on `/` into
exactly three segments, the third segment ends with `.flv`, so its split on
`.` has at least two parts; consequently `AppName` is never assigned on a call
that then fails. -/
theorem ReadRequest_dot_branch_unreachable :
    (∀ p : GoString, HasSuffix p ['.', 'f', 'l', 'v'] = true →
        (Split p '/').length = 3 →
        HasSuffix ((Split p '/').getD 2 []) ['.', 'f', 'l', 'v'] = true ∧
          ¬ (Split ((Split p '/').getD 2 []) '.').length < 2) ∧
      (∀ (session : SubSession) (now : Int) (rd : HeaderRead),
        (session.ReadRequest now rd).1 ≠ none →
        (session.ReadRequest now rd).2.AppName = session.AppName) := by
  constructor
  · intro p hsuf hlen
    have := third_segment_has_dot p hsuf hlen
    exact ⟨third_segment_suffix p hsuf hlen, by omega⟩
  · intro session now rd h
    exact ReadRequest_failure_AppName session now rd h

/-- C20: `UpdateStat` is total and bounded under its precondition.  For every
interval above zero and every counters, also when the subtraction or the
multiplication by 8 wraps modulo 2^64, `UpdateStat` does not panic and the
stored `Bitrate` is at least 0 and below 2^54; it panics exactly when the
interval is 0. -/
theorem UpdateStat_total_bounded (session : SubSession) (interval : Nat) :
    (0 < interval →
        ∃ s, session.UpdateStat interval = some s ∧
          0 ≤ s.stat.Bitrate ∧ s.stat.Bitrate < 2 ^ 54) ∧
      (session.UpdateStat interval = none ↔ interval = 0) := by
  constructor
  · intro hi
    have hne : ¬ interval = 0 := by omega
    have hlt := bitrate_lt
      (sub64 session.conn.GetStat.WroteBytesSum session.prevConnStat.WroteBytesSum) interval
    refine ⟨_, by unfold SubSession.UpdateStat; simp only [hne, if_false]; rfl, ?_, ?_⟩
    · show 0 ≤ toInt _
      rw [toInt_small _ (by omega)]
      exact Int.ofNat_nonneg _
    · show toInt _ < 2 ^ 54
      rw [toInt_small _ (by omega)]
      exact_mod_cast hlt
  · unfold SubSession.UpdateStat
    by_cases h : interval = 0
    · simp [h]
    · simp [h]

/-- C20 witness: the current counter below the previous one, so that the
subtraction wraps. -/
theorem UpdateStat_total_bounded_witness :
    ∃ s, SubSession.UpdateStat
        { conn := { stat := { WroteBytesSum := 5 } }, prevConnStat := { WroteBytesSum := 10 } }
        1 = some s ∧
      0 ≤ s.stat.Bitrate ∧ s.stat.Bitrate < 2 ^ 54 :=
  (UpdateStat_total_bounded
    { conn := { stat := { WroteBytesSum := 5 } }, prevConnStat := { WroteBytesSum := 10 } }
    1).1 (by decide)

theorem IsAlive_stale (s1 s2 : SubSession) (st : Stat) (i : Nat)
    (h : s1.staleStat = s2.staleStat) :
    ((s1.withCounters st).IsAlive i).1 = ((s2.withCounters st).IsAlive i).1 ∧
      ((s1.withCounters st).IsAlive i).2.staleStat
        = ((s2.withCounters st).IsAlive i).2.staleStat := by
  unfold SubSession.IsAlive SubSession.withCounters Connection.GetStat
  simp only [h]
  cases s2.staleStat with
  | none => exact ⟨rfl, rfl⟩
  | some stale => exact ⟨rfl, rfl⟩

theorem IsAlive_frame (s : SubSession) (i : Nat) :
    (s.IsAlive i).2.prevConnStat = s.prevConnStat ∧ (s.IsAlive i).2.stat = s.stat ∧
      (s.IsAlive i).2.conn = s.conn := by
  unfold SubSession.IsAlive
  cases s.staleStat with
  | none => exact ⟨rfl, rfl, rfl⟩
  | some stale => exact ⟨rfl, rfl, rfl⟩

theorem UpdateStat_some (s : SubSession) (i : Nat) (t : SubSession)
    (h : s.UpdateStat i = some t) :
    i ≠ 0 ∧ t.staleStat = s.staleStat ∧ t.prevConnStat = s.conn.GetStat ∧
      t.stat.Bitrate =
        toInt (mul64 (sub64 s.conn.GetStat.WroteBytesSum s.prevConnStat.WroteBytesSum) 8
          / 1024 / i) := by
  unfold SubSession.UpdateStat at h
  by_cases hi : i = 0
  · simp [hi] at h
  · simp only [hi, if_false, Option.some.injEq] at h
    subst h
    exact ⟨hi, rfl, rfl, rfl⟩

theorem UpdateStat_of_ne (s : SubSession) (i : Nat) (hi : i ≠ 0) :
    ∃ t, s.UpdateStat i = some t := by
  unfold SubSession.UpdateStat
  simp [hi]

theorem runCalls_nil (s : SubSession) : runCalls s [] = some ([], s) := rfl

theorem runCalls_cons (s : SubSession) (st : Stat) (call : StatCall)
    (rest : List (Stat × StatCall)) :
    runCalls s ((st, call) :: rest) =
      match stepCall s st call with
      | none => none
      | some (out, s2) =>
        match runCalls s2 rest with
        | none => none
        | some (outs, s3) => some (out :: outs, s3) := rfl

/-- The liveness results of a sequence of calls are those of its liveness
checks alone. -/
theorem runCalls_alive (calls : List (Stat × StatCall)) :
    ∀ (s1 s2 : SubSession) (outs : List StatOut) (t1 : SubSession),
      s1.staleStat = s2.staleStat →
      runCalls s1 calls = some (outs, t1) →
      ∃ outs2 t2, runCalls s2 (calls.filter (fun p => p.2.isAliveCall)) = some (outs2, t2) ∧
        aliveResults outs2 = aliveResults outs ∧ t1.staleStat = t2.staleStat := by
  induction calls with
  | nil =>
    intro s1 s2 outs t1 h hr
    rw [runCalls_nil] at hr
    cases hr
    exact ⟨[], s2, rfl, rfl, h⟩
  | cons p rest ih =>
    intro s1 s2 outs t1 h hr
    obtain ⟨st, call⟩ := p
    rw [runCalls_cons] at hr
    cases call with
    | isAlive i =>
      simp only [stepCall] at hr
      cases hrest : runCalls ((s1.withCounters st).IsAlive i).2 rest with
      | none => rw [hrest] at hr; cases hr
      | some r =>
        obtain ⟨outs1, t⟩ := r
        rw [hrest] at hr
        cases hr
        have hst := IsAlive_stale s1 s2 st i h
        obtain ⟨o2, t2, h2, ha, hs⟩ :=
          ih _ ((s2.withCounters st).IsAlive i).2 outs1 t1 hst.2 hrest
        refine ⟨.alive ((s2.withCounters st).IsAlive i).1 :: o2, t2, ?_, ?_, hs⟩
        · have hf : List.filter (fun p : Stat × StatCall => p.2.isAliveCall)
              ((st, StatCall.isAlive i) :: rest)
              = (st, StatCall.isAlive i)
                :: List.filter (fun p : Stat × StatCall => p.2.isAliveCall) rest := by
            simp [StatCall.isAliveCall]
          rw [hf, runCalls_cons]
          simp only [stepCall, h2]
        · simp only [aliveResults, ha, hst.1]
    | updateStat i =>
      simp only [stepCall] at hr
      cases hu : (s1.withCounters st).UpdateStat i with
      | none => rw [hu] at hr; cases hr
      | some u =>
        rw [hu] at hr
        simp only at hr
        cases hrest : runCalls u rest with
        | none => rw [hrest] at hr; cases hr
        | some r =>
          obtain ⟨outs1, t⟩ := r
          rw [hrest] at hr
          cases hr
          have hus := (UpdateStat_some _ i u hu).2.1
          have hst : u.staleStat = s2.staleStat := by
            rw [hus]; exact h
          obtain ⟨o2, t2, h2, ha, hs⟩ := ih u s2 outs1 t1 hst hrest
          refine ⟨o2, t2, ?_, ?_, hs⟩
          · have hf : List.filter (fun p : Stat × StatCall => p.2.isAliveCall)
                ((st, StatCall.updateStat i) :: rest)
                = List.filter (fun p : Stat × StatCall => p.2.isAliveCall) rest := by
              simp [StatCall.isAliveCall]
            rw [hf, h2]
          · simp only [aliveResults, ha]
    | getStat =>
      simp only [stepCall] at hr
      cases hrest : runCalls (s1.withCounters st).GetStat.2 rest with
      | none => rw [hrest] at hr; cases hr
      | some r =>
        obtain ⟨outs1, t⟩ := r
        rw [hrest] at hr
        cases hr
        have hst : (s1.withCounters st).GetStat.2.staleStat = s2.staleStat := h
        obtain ⟨o2, t2, h2, ha, hs⟩ := ih _ s2 outs1 t1 hst hrest
        refine ⟨o2, t2, ?_, ?_, hs⟩
        · have hf : List.filter (fun p : Stat × StatCall => p.2.isAliveCall)
              ((st, StatCall.getStat) :: rest)
              = List.filter (fun p : Stat × StatCall => p.2.isAliveCall) rest := by
            simp [StatCall.isAliveCall]
          rw [hf, h2]
        · simp only [aliveResults, ha]

theorem UpdateStat_prev (s1 s2 : SubSession) (st : Stat) (i : Nat) (u1 : SubSession)
    (h : s1.prevConnStat = s2.prevConnStat)
    (hu : (s1.withCounters st).UpdateStat i = some u1) :
    ∃ u2, (s2.withCounters st).UpdateStat i = some u2 ∧
      u2.stat.Bitrate = u1.stat.Bitrate ∧ u1.prevConnStat = u2.prevConnStat := by
  obtain ⟨hi, -, hp1, hb1⟩ := UpdateStat_some _ i u1 hu
  obtain ⟨u2, hu2⟩ := UpdateStat_of_ne (s2.withCounters st) i hi
  obtain ⟨-, -, hp2, hb2⟩ := UpdateStat_some _ i u2 hu2
  refine ⟨u2, hu2, ?_, ?_⟩
  · rw [hb1, hb2]
    have e1 : (s1.withCounters st).prevConnStat = s1.prevConnStat := rfl
    have e2 : (s2.withCounters st).prevConnStat = s2.prevConnStat := rfl
    have c1 : (s1.withCounters st).conn.GetStat = st := rfl
    have c2 : (s2.withCounters st).conn.GetStat = st := rfl
    rw [e1, e2, c1, c2, h]
  · rw [hp1, hp2]
    rfl

/-- The bitrates of a sequence of calls are those of the sequence without its
liveness checks. -/
theorem runCalls_bitrate (calls : List (Stat × StatCall)) :
    ∀ (s1 s2 : SubSession) (outs : List StatOut) (t1 : SubSession),
      s1.prevConnStat = s2.prevConnStat →
      runCalls s1 calls = some (outs, t1) →
      ∃ outs2 t2, runCalls s2 (calls.filter (fun p => !p.2.isAliveCall)) = some (outs2, t2) ∧
        bitrateResults outs2 = bitrateResults outs ∧ t1.prevConnStat = t2.prevConnStat := by
  induction calls with
  | nil =>
    intro s1 s2 outs t1 h hr
    rw [runCalls_nil] at hr
    cases hr
    exact ⟨[], s2, rfl, rfl, h⟩
  | cons p rest ih =>
    intro s1 s2 outs t1 h hr
    obtain ⟨st, call⟩ := p
    rw [runCalls_cons] at hr
    cases call with
    | isAlive i =>
      simp only [stepCall] at hr
      cases hrest : runCalls ((s1.withCounters st).IsAlive i).2 rest with
      | none => rw [hrest] at hr; cases hr
      | some r =>
        obtain ⟨outs1, t⟩ := r
        rw [hrest] at hr
        cases hr
        have hst : ((s1.withCounters st).IsAlive i).2.prevConnStat = s2.prevConnStat := by
          rw [(IsAlive_frame _ i).1]; exact h
        obtain ⟨o2, t2, h2, ha, hs⟩ := ih _ s2 outs1 t1 hst hrest
        refine ⟨o2, t2, ?_, ?_, hs⟩
        · have hf : List.filter (fun p : Stat × StatCall => !p.2.isAliveCall)
              ((st, StatCall.isAlive i) :: rest)
              = List.filter (fun p : Stat × StatCall => !p.2.isAliveCall) rest := by
            simp [StatCall.isAliveCall]
          rw [hf, h2]
        · simp only [bitrateResults, ha]
    | updateStat i =>
      simp only [stepCall] at hr
      cases hu : (s1.withCounters st).UpdateStat i with
      | none => rw [hu] at hr; cases hr
      | some u =>
        rw [hu] at hr
        simp only at hr
        cases hrest : runCalls u rest with
        | none => rw [hrest] at hr; cases hr
        | some r =>
          obtain ⟨outs1, t⟩ := r
          rw [hrest] at hr
          cases hr
          obtain ⟨u2, hu2, hb, hp⟩ := UpdateStat_prev s1 s2 st i u h hu
          obtain ⟨o2, t2, h2, ha, hs⟩ := ih u u2 outs1 t1 hp hrest
          refine ⟨.bitrate u2.stat.Bitrate :: o2, t2, ?_, ?_, hs⟩
          · have hf : List.filter (fun p : Stat × StatCall => !p.2.isAliveCall)
                ((st, StatCall.updateStat i) :: rest)
                = (st, StatCall.updateStat i)
                  :: List.filter (fun p : Stat × StatCall => !p.2.isAliveCall) rest := by
              simp [StatCall.isAliveCall]
            rw [hf, runCalls_cons]
            simp only [stepCall, hu2, h2]
          · simp only [bitrateResults, ha, hb]
    | getStat =>
      simp only [stepCall] at hr
      cases hrest : runCalls (s1.withCounters st).GetStat.2 rest with
      | none => rw [hrest] at hr; cases hr
      | some r =>
        obtain ⟨outs1, t⟩ := r
        rw [hrest] at hr
        cases hr
        have hst : (s1.withCounters st).GetStat.2.prevConnStat
            = (s2.withCounters st).GetStat.2.prevConnStat := h
        obtain ⟨o2, t2, h2, ha, hs⟩ := ih _ _ outs1 t1 hst hrest
        refine ⟨.record (s2.withCounters st).GetStat.1 :: o2, t2, ?_, ?_, hs⟩
        · have hf : List.filter (fun p : Stat × StatCall => !p.2.isAliveCall)
              ((st, StatCall.getStat) :: rest)
              = (st, StatCall.getStat)
                :: List.filter (fun p : Stat × StatCall => !p.2.isAliveCall) rest := by
            simp [StatCall.isAliveCall]
          rw [hf, runCalls_cons]
          simp only [stepCall, h2]
        · simp only [bitrateResults, ha]

/-- A sequence of calls runs to its end when no `UpdateStat` has the interval
0. -/
theorem runCalls_total (calls : List (Stat × StatCall)) :
    ∀ s : SubSession, (∀ p ∈ calls, p.2 ≠ StatCall.updateStat 0) →
      ∃ r, runCalls s calls = some r := by
  induction calls with
  | nil => intro s _; exact ⟨_, rfl⟩
  | cons p rest ih =>
    intro s h
    obtain ⟨st, call⟩ := p
    have hrest : ∀ p ∈ rest, p.2 ≠ StatCall.updateStat 0 :=
      fun p hp => h p (List.mem_cons_of_mem _ hp)
    rw [runCalls_cons]
    cases call with
    | isAlive i =>
      obtain ⟨r, hr⟩ := ih ((s.withCounters st).IsAlive i).2 hrest
      simp only [stepCall, hr]
      exact ⟨_, rfl⟩
    | updateStat i =>
      have hi : i ≠ 0 := by
        intro e
        exact h (st, StatCall.updateStat i) (List.mem_cons_self _ _) (by rw [e])
      obtain ⟨u, hu⟩ := UpdateStat_of_ne (s.withCounters st) i hi
      obtain ⟨r, hr⟩ := ih u hrest
      simp only [stepCall, hu, hr]
      exact ⟨_, rfl⟩
    | getStat =>
      obtain ⟨r, hr⟩ := ih (s.withCounters st).GetStat.2 hrest
      simp only [stepCall, hr]
      exact ⟨_, rfl⟩

/-- C19: bitrate tracking and liveness tracking do not interfere.  `UpdateStat`
and `GetStat` leave the stale baseline unchanged, and `IsAlive` leaves the
previous-interval baseline and the statistics record unchanged; so, for every
sequence of monitoring calls and of counters of the transport in which every
`UpdateStat` has an interval above zero, the sequence runs to its end, the
results of its `IsAlive` calls are those of the `IsAlive` calls alone, and the
bitrates that its `UpdateStat` calls store are those of the sequence without
the `IsAlive` calls. -/
theorem stat_liveness_independent (session : SubSession) (calls : List (Stat × StatCall))
    (hpre : ∀ p ∈ calls, p.2 ≠ StatCall.updateStat 0) :
    (∀ (s : SubSession) (i : Nat) (t : SubSession), s.UpdateStat i = some t →
        t.staleStat = s.staleStat) ∧
      (∀ s : SubSession, s.GetStat.2.staleStat = s.staleStat) ∧
      (∀ (s : SubSession) (i : Nat), (s.IsAlive i).2.prevConnStat = s.prevConnStat ∧
        (s.IsAlive i).2.stat.Bitrate = s.stat.Bitrate) ∧
      ∃ outs t, runCalls session calls = some (outs, t) ∧
        (∃ outs2 t2,
          runCalls session (calls.filter (fun p => p.2.isAliveCall)) = some (outs2, t2) ∧
            aliveResults outs2 = aliveResults outs) ∧
        (∃ outs3 t3,
          runCalls session (calls.filter (fun p => !p.2.isAliveCall)) = some (outs3, t3) ∧
            bitrateResults outs3 = bitrateResults outs) := by
  refine ⟨fun s i t h => (UpdateStat_some s i t h).2.1, fun _ => rfl,
    fun s i => ⟨(IsAlive_frame s i).1, by rw [(IsAlive_frame s i).2.1]⟩, ?_⟩
  obtain ⟨⟨outs, t⟩, hr⟩ := runCalls_total calls session hpre
  refine ⟨outs, t, hr, ?_, ?_⟩
  · obtain ⟨o2, t2, h2, ha, -⟩ := runCalls_alive calls session session outs t rfl hr
    exact ⟨o2, t2, h2, ha⟩
  · obtain ⟨o3, t3, h3, hb, -⟩ := runCalls_bitrate calls session session outs t rfl hr
    exact ⟨o3, t3, h3, hb⟩

/-- C19 witness: two liveness checks with an `UpdateStat` and a `GetStat` in
between. -/
theorem stat_liveness_independent_witness :
    ∃ outs t,
      runCalls (NewSubSession [] [] [] {})
          [({ WroteBytesSum := 10 }, .isAlive 5), ({ WroteBytesSum := 10250 }, .updateStat 10),
            ({ WroteBytesSum := 10250 }, .getStat), ({ WroteBytesSum := 10250 }, .isAlive 5)]
        = some (outs, t) ∧
      (∃ outs2 t2,
        runCalls (NewSubSession [] [] [] {})
            ([({ WroteBytesSum := 10 }, StatCall.isAlive 5),
              ({ WroteBytesSum := 10250 }, .updateStat 10),
              ({ WroteBytesSum := 10250 }, .getStat),
              ({ WroteBytesSum := 10250 }, .isAlive 5)].filter (fun p => p.2.isAliveCall))
          = some (outs2, t2) ∧
        aliveResults outs2 = aliveResults outs) ∧
      (∃ outs3 t3,
        runCalls (NewSubSession [] [] [] {})
            ([({ WroteBytesSum := 10 }, StatCall.isAlive 5),
              ({ WroteBytesSum := 10250 }, .updateStat 10),
              ({ WroteBytesSum := 10250 }, .getStat),
              ({ WroteBytesSum := 10250 }, .isAlive 5)].filter (fun p => !p.2.isAliveCall))
          = some (outs3, t3) ∧
        bitrateResults outs3 = bitrateResults outs) :=
  (stat_liveness_independent (NewSubSession [] [] [] {})
    [({ WroteBytesSum := 10 }, .isAlive 5), ({ WroteBytesSum := 10250 }, .updateStat 10),
      ({ WroteBytesSum := 10250 }, .getStat), ({ WroteBytesSum := 10250 }, .isAlive 5)]
    (by decide)).2.2.2

end Httpflv
